import Mathlib

/-!
# Verification of the Letta VS Code extension's MCP tool-server core

Shallow embedding of the tool-server subsystem of the
`test-letta-vscode-extension` repository:

* port allocation (`findOpenPort`, `src/mcp/server.ts`),
* the session registry and the `POST /mcp` protocol router
  (`McpExpressServer.setupRoutes`, `src/mcp/server.ts`),
* dynamic tool registration (`McpExpressServer.registerTool`),
* the tool registry and its `run_command` handler (`src/mcp/toolRegistry.ts`),
* the file-tool executor (`executeTool`, `src/tools/fileTools.ts`),
* the terminal-tool executor (`executeTerminalCommand`,
  `readTerminalOutput`, `src/tools/terminalTools.ts`).

Effectful TypeScript is embedded as pure Lean functions that thread the
relevant state (filesystem, terminal state, session maps) explicitly and
record side effects in a trace.  Promise rejections / thrown exceptions are
embedded as `Except.error` carrying the `Error`'s message string.
User-interaction results (button choices in modal dialogs) and the
child-process executor are passed in as explicit parameters.
-/

namespace LettaMcp

/-! ## POSIX path model

The file tools manipulate paths with Node's `path` module
(`path.isAbsolute`, `path.join`, `path.relative`, `path.basename`).
We model a filesystem path as its list of `/`-separated segments; an
absolute path is identified by its normalized segment list (normalization
resolves `.` and `..`, and `..` at the root of an absolute path is
dropped, as `path.normalize` does on POSIX). -/

/-- JavaScript's `String.prototype.startsWith`, at the character level
(core's byte-position `String.startsWith` does not reduce in the
kernel). -/
def strStartsWith (s pre : String) : Bool := pre.data.isPrefixOf s.data

/-- JavaScript's `String.prototype.split(sep)` for a one-character
separator, keeping empty pieces, at the character level. -/
def splitChar (c : Char) (s : String) : List String :=
  (go s.data []).map fun cs => ⟨cs⟩
where
  go : List Char → List Char → List (List Char)
    | [], acc => [acc.reverse]
    | x :: xs, acc =>
      if x = c then acc.reverse :: go xs [] else go xs (x :: acc)

/-- JavaScript's `String.prototype.includes`, at the character level. -/
def strContains (s sub : String) : Bool :=
  go s.data
where
  go : List Char → Bool
    | [] => sub.data.isPrefixOf []
    | x :: xs => sub.data.isPrefixOf (x :: xs) || go xs

/-- JavaScript's `String.prototype.toLowerCase` (ASCII letters, which is
all the comparisons in the source ever see). -/
def strToLower (s : String) : String := ⟨s.data.map Char.toLower⟩

/-- JavaScript's `a || b` on an optional string `a`: `b` when `a` is
absent or empty (the empty string is falsy). -/
def jsOrString (a : Option String) (b : String) : String :=
  match a with
  | some s => if s = "" then b else s
  | none => b

/-- `path.isAbsolute` on POSIX: the string starts with `/`. -/
def isAbsolutePath (s : String) : Bool := strStartsWith s "/"

/-- The `/`-separated segments of a path string (empty segments collapse,
as Node's normalization does for repeated separators). -/
def segsOf (s : String) : List String :=
  (splitChar '/' s).filter (fun t => t ≠ "")

/-- One step of POSIX normalization over an absolute path's segments:
`.` is dropped, `..` pops the last surviving segment (and is dropped at
the root), any other segment is kept. -/
def normStep (acc : List String) (seg : String) : List String :=
  if seg = "." then acc
  else if seg = ".." then acc.dropLast
  else acc ++ [seg]

/-- Normalize an absolute path's segment list. -/
def normAbs (segs : List String) : List String := segs.foldl normStep []

/-- `path.join(root, p)` for an already-normalized absolute `root` and a
path string `p`: concatenate the segments and normalize. -/
def joinPath (root : List String) (p : String) : List String :=
  normAbs (root ++ segsOf p)

/-- `path.relative(root, fp)` for two normalized absolute paths, as a
segment list: strip the common prefix, then one `..` per remaining `root`
segment followed by the remaining `fp` segments. -/
def relSegs : List String → List String → List String
  | [], fp => fp
  | _ :: rs, [] => List.replicate (rs.length + 1) ".."
  | r :: rs, f :: fs =>
    if r = f then relSegs rs fs
    else List.replicate (rs.length + 1) ".." ++ (f :: fs)

/-- `relativePath.startsWith('..')` where `relativePath` is the
`/`-joined rendering of the segment list: true iff the first segment
starts with the two characters `..`. -/
def relStartsWithDotDot (rel : List String) : Bool :=
  match rel with
  | [] => false
  | s :: _ => strStartsWith s ".."

/-- `path.basename(p)`: the last segment of the path (empty for `""` or
`"/"`). -/
def basenameOf (p : String) : String := ((segsOf p).getLast?).getD ""

/-- Render a normalized absolute segment list back to a path string. -/
def renderAbs (segs : List String) : String :=
  "/" ++ String.intercalate "/" segs

/-- Render a relative segment list back to a path string. -/
def renderRel (segs : List String) : String := String.intercalate "/" segs

/-- A normalized absolute path `fp` is inside the workspace root iff
`root` is a prefix of its segments. -/
def insideRoot (root fp : List String) : Prop := root <+: fp

instance (root fp : List String) : Decidable (insideRoot root fp) := by
  unfold insideRoot; infer_instance

/-- If the `relativePath.startsWith('..')` containment test passes, the
path really is under the workspace root. (The converse can fail: a
workspace file whose own name starts with `..` is also rejected, which
only over-approximates the unsafe set.) -/
theorem relStartsWithDotDot_false_imp_insideRoot (root fp : List String)
    (h : relStartsWithDotDot (relSegs root fp) = false) : insideRoot root fp := by
  induction root generalizing fp with
  | nil => exact ⟨fp, rfl⟩
  | cons r rs ih =>
    cases fp with
    | nil =>
      simp [relSegs, relStartsWithDotDot, List.replicate_succ] at h
      exact absurd h (by decide)
    | cons f fs =>
      by_cases hrf : r = f
      · subst hrf
        simp only [relSegs, if_pos rfl] at h
        obtain ⟨t, ht⟩ := ih fs h
        exact ⟨t, by simp [ht]⟩
      · simp [relSegs, hrf, List.replicate_succ, relStartsWithDotDot] at h
        exact absurd h (by decide)

/-! ## Port allocator (`findOpenPort`, `src/mcp/server.ts` lines 351–392)

`findOpenPort(port, maxRetries)` tries to bind `port`; on `EADDRINUSE`
it increments the port while `retries < maxRetries`, and otherwise
rejects with an `Error` naming the attempt count (`maxRetries + 1`) and
the starting port.  Port occupancy is an explicit oracle
`occupied : Nat → Bool`; a successful `listen` resolves with the bound
port.  (Errors other than `EADDRINUSE` are outside this model: the
oracle only distinguishes free from in-use.) -/

/-- The inner `tryPort` recursion of `findOpenPort`: `p` is the port
being tried, `retries` the number of increments performed so far. -/
def tryPort (occupied : Nat → Bool) (startPort maxRetries : Nat) :
    Nat → Nat → Except String Nat
  | p, retries =>
    if occupied p then
      if retries < maxRetries then
        tryPort occupied startPort maxRetries (p + 1) (retries + 1)
      else
        .error s!"Could not find an open port after {maxRetries + 1} attempts starting from {startPort}"
    else
      .ok p
  termination_by _ retries => maxRetries - retries
  decreasing_by omega

/-- `findOpenPort(port, maxRetries)`. -/
def findOpenPort (occupied : Nat → Bool) (port : Nat) (maxRetries : Nat := 10) :
    Except String Nat :=
  tryPort occupied port maxRetries port 0

/-- If the next `j` ports starting at `p` are occupied, `p + j` is free,
and the retry budget allows `j` more increments, `tryPort` resolves with
`p + j`. -/
theorem tryPort_free_after (occupied : Nat → Bool) (startPort m : Nat) :
    ∀ (j p r : Nat), (∀ i, i < j → occupied (p + i) = true) →
      occupied (p + j) = false → r + j ≤ m →
      tryPort occupied startPort m p r = .ok (p + j) := by
  intro j
  induction j with
  | zero =>
    intro p r _ hfree _
    unfold tryPort
    simp at hfree
    simp [hfree]
  | succ j ih =>
    intro p r hbusy hfree hle
    have hp : occupied p = true := by simpa using hbusy 0 (Nat.succ_pos j)
    have hr : r < m := by omega
    unfold tryPort
    rw [hp, if_pos hr]
    simp only [if_true]
    have := ih (p + 1) (r + 1)
      (fun i hi => by simpa [Nat.add_assoc, Nat.add_comm 1 i] using hbusy (i + 1) (by omega))
      (by simpa [Nat.add_assoc, Nat.add_comm 1 j] using hfree)
      (by omega)
    simpa [Nat.add_assoc, Nat.add_comm 1 j] using this

/-- If every port from `p` up to the remaining retry budget is occupied,
`tryPort` rejects with the attempt-count error. -/
theorem tryPort_exhausted (occupied : Nat → Bool) (startPort m : Nat) :
    ∀ (n p r : Nat), m - r = n → (∀ i, i ≤ m - r → occupied (p + i) = true) →
      tryPort occupied startPort m p r =
        .error s!"Could not find an open port after {m + 1} attempts starting from {startPort}" := by
  intro n
  induction n with
  | zero =>
    intro p r hn hbusy
    have hp : occupied p = true := by simpa using hbusy 0 (Nat.zero_le _)
    have hr : ¬ r < m := by omega
    unfold tryPort
    rw [hp, if_neg hr]
    simp
  | succ n ih =>
    intro p r hn hbusy
    have hp : occupied p = true := by simpa using hbusy 0 (Nat.zero_le _)
    have hr : r < m := by omega
    unfold tryPort
    rw [hp, if_pos hr]
    simp only [if_true]
    exact ih (p + 1) (r + 1) (by omega)
      (fun i hi => by
        simpa [Nat.add_assoc, Nat.add_comm 1 i] using hbusy (i + 1) (by omega))

/-- C3: with ports `P..P+k` occupied and `P+k+1` free,
`findOpenPort(P, k+1)` resolves with `P+k+1`; with `P..P+k+1` all
occupied, it rejects with an `Error` naming the attempt count
(`(k+1)+1`) and the starting port `P` — the recursion is bounded, never
a hang. -/
theorem findOpenPort_allocation (occupied : Nat → Bool) (P k : Nat) :
    ((∀ i, i ≤ k → occupied (P + i) = true) → occupied (P + (k + 1)) = false →
      findOpenPort occupied P (k + 1) = .ok (P + (k + 1))) ∧
    ((∀ i, i ≤ k + 1 → occupied (P + i) = true) →
      findOpenPort occupied P (k + 1) =
        .error s!"Could not find an open port after {(k + 1) + 1} attempts starting from {P}") := by
  constructor
  · intro hbusy hfree
    exact tryPort_free_after occupied P (k + 1) (k + 1) P 0
      (fun i hi => hbusy i (by omega)) hfree (by omega)
  · intro hbusy
    exact tryPort_exhausted occupied P (k + 1) (k + 1) P 0 (by omega)
      (fun i hi => hbusy i (by omega))

/-- Witness for `findOpenPort_allocation` at `P = 3000`, `k = 1`:
with 3000–3001 busy and 3002 free the allocator returns 3002; with
3000–3002 all busy it returns the 3-attempt error. -/
theorem findOpenPort_allocation_witness :
    findOpenPort (fun p => p ≤ 3001) 3000 2 = .ok 3002 ∧
    findOpenPort (fun _ => true) 3000 2 =
      .error "Could not find an open port after 3 attempts starting from 3000" := by
  constructor
  · have h := (findOpenPort_allocation (fun p => decide (p ≤ 3001)) 3000 1).1
      (by intro i hi; interval_cases i <;> decide) (by decide)
    simpa using h
  · have h := (findOpenPort_allocation (fun _ => true) 3000 1).2
      (by intro i _; rfl)
    rw [h]
    congr 1

/-! ## Session registry & protocol router
(`McpExpressServer`, `src/mcp/server.ts` lines 16–173)

The server keeps two maps keyed by session id: `transports` (the
`StreamableHTTPServerTransport` per session, used for routing) and
`sessions` (the `McpServer` per session).  A registry entry
(`ToolDefinition`, `src/mcp/toolRegistry.ts`) carries a name, a
description, a zod schema and a handler; the schema and handler are
embedded separately as the per-tool dispatch functions of the later
sections, so the record here carries the definition's identity. -/

/-- A tool-registry entry (`ToolDefinition` in `toolRegistry.ts`). -/
structure ToolDef where
  name : String
  description : String
deriving DecidableEq

/-- The MCP SDK's `McpServer`, viewed through the tools registered on
it. -/
structure McpServerM where
  tools : List ToolDef
deriving DecidableEq

/-- The SDK's `McpServer.tool(name, schema, handler)`: registers the
definition, throwing an `Error` when the name is already registered. -/
def McpServerM.tool (srv : McpServerM) (t : ToolDef) : Except String McpServerM :=
  if srv.tools.any (fun u => u.name = t.name) then
    .error s!"Tool {t.name} is already registered"
  else
    .ok { tools := srv.tools ++ [t] }

/-- The per-session registration loop of the `POST /mcp` initialization
branch (`server.ts` lines 71–98): every registry entry is registered
with `server.tool`; a throw (duplicate name) is caught and logged, the
loop continuing. -/
def registerAllTools (reg : List ToolDef) : McpServerM :=
  reg.foldl
    (fun srv t =>
      match srv.tool t with
      | .ok srv2 => srv2
      | .error _ => srv)
    { tools := [] }

/-- The SDK's `StreamableHTTPServerTransport`, as the router state sees
it: `sessionId` is unassigned at construction and is assigned by
`handleRequest` while it processes an initialization request (firing
`onsessioninitialized`); `connectedServer` records the `McpServer`
linked to it by `server.connect(transport)` (`none` for the GET-branch
transports, which are never connected to a server). -/
structure TransportM where
  sessionId : Option String
  connectedServer : Option McpServerM
deriving DecidableEq

/-- The mutable maps of `McpExpressServer`: `transports` and `sessions`,
both keyed by session id. -/
structure RouterState where
  transports : List (String × TransportM)
  sessions : List (String × McpServerM)
deriving DecidableEq

/-- An HTTP response, reduced to what the claims observe: the status
code and the `mcp-session-id` response header. -/
structure HttpResponse where
  status : Nat
  sessionIdHeader : Option String
deriving DecidableEq

/-- A JSON-RPC request body, reduced to its method. -/
structure RpcBody where
  method : String
deriving DecidableEq

/-- The SDK's `isInitializeRequest`: the body is a JSON-RPC request
whose method is `initialize`. -/
def isInitializeRequest (b : RpcBody) : Bool := b.method = "initialize"

/-- The `POST /mcp` route handler (`server.ts` lines 37–128).
`freshId` stands for the `randomUUID()` that the transport's
`sessionIdGenerator` produces for a new session.  In the initialization
branch the `if (transport.sessionId)` guard at line 101 runs *before*
`transport.handleRequest` has assigned the session id, so the
`sessions` map is left untouched; `handleRequest` then assigns
`freshId`, fires `onsessioninitialized` (storing the transport), and
answers 200 with the `mcp-session-id` header.  The reuse branch routes
the request through the stored transport (its response is modeled as
200-class with the session header, which no claim inspects).  Any other
request is
rejected with the 400 JSON-RPC error body and no state change.
A present header is taken to be non-empty (the `sessionId &&` and
`!sessionId` truthiness tests coincide with presence then; MCP clients
do not send an empty `mcp-session-id`). -/
def handlePost (toolReg : List ToolDef) (freshId : String)
    (st : RouterState) (sessionIdHeader : Option String) (body : RpcBody) :
    RouterState × HttpResponse :=
  match sessionIdHeader with
  | some sid =>
    match st.transports.lookup sid with
    | some _ => (st, { status := 200, sessionIdHeader := some sid })
    | none => (st, { status := 400, sessionIdHeader := none })
  | none =>
    if isInitializeRequest body then
      let server := registerAllTools toolReg
      let transport : TransportM :=
        { sessionId := some freshId, connectedServer := some server }
      ({ transports := st.transports ++ [(freshId, transport)],
         sessions := st.sessions },
       { status := 200, sessionIdHeader := some freshId })
    else
      (st, { status := 400, sessionIdHeader := none })

/-- `McpExpressServer.registerTool` (`server.ts` lines 291–344): pushes
a new definition onto the tool registry (the description falling back to
`'No description provided'` when the schema carries none), then attempts
to register it with every server in the `sessions` map; `server.tool`
throwing on a duplicate name is caught and logged, leaving that server
unchanged. -/
def registerTool (reg : List ToolDef) (sessions : List (String × McpServerM))
    (name : String) (schemaDescription : Option String) :
    List ToolDef × List (String × McpServerM) :=
  let t : ToolDef :=
    { name := name
      description := jsOrString schemaDescription "No description provided" }
  (reg ++ [t],
   sessions.map (fun p =>
     (p.1,
      match p.2.tool t with
      | .ok srv2 => srv2
      | .error _ => p.2)))

/-- Looking a key up past a prefix in which it does not occur. -/
theorem lookup_append_of_none {β : Type} (l₁ l₂ : List (String × β)) (k : String)
    (h : l₁.lookup k = none) : (l₁ ++ l₂).lookup k = l₂.lookup k := by
  induction l₁ with
  | nil => simp
  | cons hd tl ih =>
    by_cases hk : k = hd.1
    · simp [List.lookup, hk] at h
    · simp only [List.lookup, List.cons_append] at h ⊢
      have : (k == hd.1) = false := by simpa using hk
      rw [this] at h ⊢
      exact ih h

/-- With pairwise-distinct names, the registration loop registers every
entry, in order. -/
theorem registerAllTools_eq_of_nodup (reg : List ToolDef)
    (h : (reg.map ToolDef.name).Nodup) : (registerAllTools reg).tools = reg := by
  suffices H : ∀ (srv : McpServerM),
      (∀ t ∈ reg, ∀ u ∈ srv.tools, u.name ≠ t.name) →
      (reg.foldl
        (fun srv t =>
          match srv.tool t with
          | .ok srv2 => srv2
          | .error _ => srv) srv).tools = srv.tools ++ reg by
    simpa using H { tools := [] } (by simp)
  induction reg with
  | nil => intro srv _; simp
  | cons t ts ih =>
    intro srv hdisj
    have hnone : srv.tools.any (fun u => u.name = t.name) = false := by
      rw [Bool.eq_false_iff]
      intro hc
      simp only [List.any_eq_true, decide_eq_true_eq] at hc
      obtain ⟨u, hu, hname⟩ := hc
      exact hdisj t (by simp) u hu hname
    have hnew : srv.tool t = .ok { tools := srv.tools ++ [t] } := by
      unfold McpServerM.tool
      rw [hnone]
      simp
    simp only [List.foldl_cons, hnew]
    have h' : (ToolDef.name t :: ts.map ToolDef.name).Nodup := by simpa using h
    have hts : (ts.map ToolDef.name).Nodup := h'.of_cons
    have htnot : t.name ∉ ts.map ToolDef.name := (List.nodup_cons.mp h').1
    have := ih hts { tools := srv.tools ++ [t] }
      (by
        intro s hs u hu hne
        rcases List.mem_append.mp hu with hu | hu
        · exact hdisj s (by simp [hs]) u hu hne
        · simp only [List.mem_singleton] at hu
          subst hu
          exact htnot (hne ▸ List.mem_map_of_mem ToolDef.name hs))
    simpa [List.append_assoc] using this

/-- C1: a `POST /mcp` with no `mcp-session-id` header and an
initialization body makes the router mint the fresh session id, build a
new `McpServer` carrying every entry of the tool registry (their names
being distinct), store the session's transport in the registry keyed by
that id, and answer with the new id in the `mcp-session-id` header. -/
theorem handlePost_initialization (toolReg : List ToolDef) (freshId : String)
    (st : RouterState) (body : RpcBody)
    (hnames : (toolReg.map ToolDef.name).Nodup)
    (hfresh : st.transports.lookup freshId = none)
    (hinit : isInitializeRequest body = true) :
    (handlePost toolReg freshId st none body).2.status = 200 ∧
    (handlePost toolReg freshId st none body).2.sessionIdHeader = some freshId ∧
    ∃ tr : TransportM,
      (handlePost toolReg freshId st none body).1.transports.lookup freshId = some tr ∧
      tr.sessionId = some freshId ∧
      ∃ srv : McpServerM, tr.connectedServer = some srv ∧ srv.tools = toolReg := by
  have hstep : handlePost toolReg freshId st none body =
      ({ transports := st.transports ++
          [(freshId, { sessionId := some freshId,
                       connectedServer := some (registerAllTools toolReg) })],
         sessions := st.sessions },
       { status := 200, sessionIdHeader := some freshId }) := by
    unfold handlePost
    rw [hinit]
    rfl
  rw [hstep]
  refine ⟨rfl, rfl,
    ⟨{ sessionId := some freshId,
       connectedServer := some (registerAllTools toolReg) }, ?_, rfl,
      registerAllTools toolReg, rfl, registerAllTools_eq_of_nodup toolReg hnames⟩⟩
  show (st.transports ++ _).lookup freshId = _
  rw [lookup_append_of_none _ _ _ hfresh]
  simp [List.lookup]

/-- Witness for `handlePost_initialization`: a registry of two tools, an
empty router state, an `initialize` body and the fresh id `"sess-1"`. -/
theorem handlePost_initialization_witness :
    (handlePost [⟨"run_command", "runs"⟩, ⟨"create_file", "creates"⟩] "sess-1"
        ⟨[], []⟩ none ⟨"initialize"⟩).2.status = 200 ∧
    (handlePost [⟨"run_command", "runs"⟩, ⟨"create_file", "creates"⟩] "sess-1"
        ⟨[], []⟩ none ⟨"initialize"⟩).2.sessionIdHeader = some "sess-1" ∧
    ∃ tr : TransportM,
      (handlePost [⟨"run_command", "runs"⟩, ⟨"create_file", "creates"⟩] "sess-1"
          ⟨[], []⟩ none ⟨"initialize"⟩).1.transports.lookup "sess-1" = some tr ∧
      tr.sessionId = some "sess-1" ∧
      ∃ srv : McpServerM, tr.connectedServer = some srv ∧
        srv.tools = [⟨"run_command", "runs"⟩, ⟨"create_file", "creates"⟩] :=
  handlePost_initialization _ _ _ _ (by decide) (by decide) (by decide)

/-- C2: a `POST /mcp` that is not an initialization request and whose
session-id header is absent or unknown is rejected with the 400 JSON-RPC
error response, the router state (both maps) left exactly as it was. -/
theorem handlePost_reject_unknown_session (toolReg : List ToolDef)
    (freshId : String) (st : RouterState) (sessionIdHeader : Option String)
    (body : RpcBody)
    (hnotinit : isInitializeRequest body = false)
    (hsid : sessionIdHeader = none ∨
      ∃ s, sessionIdHeader = some s ∧ st.transports.lookup s = none) :
    handlePost toolReg freshId st sessionIdHeader body =
      (st, { status := 400, sessionIdHeader := none }) := by
  rcases hsid with h | ⟨s, hs, hnone⟩
  · subst h
    simp [handlePost, hnotinit]
  · subst hs
    simp [handlePost, hnone]

/-- Witness for `handlePost_reject_unknown_session`: a `tools/call` body
with an unknown session id against an empty router state. -/
theorem handlePost_reject_unknown_session_witness :
    handlePost [] "fresh" ⟨[], []⟩ (some "ghost") ⟨"tools/call"⟩ =
      (⟨[], []⟩, { status := 400, sessionIdHeader := none }) :=
  handlePost_reject_unknown_session [] "fresh" ⟨[], []⟩ (some "ghost")
    ⟨"tools/call"⟩ (by decide) (Or.inr ⟨"ghost", rfl, by decide⟩)

/-- C8 fails as stated: registering a tool whose name collides with an
existing registry entry *appends* it (`toolRegistry.push`), so the
registry then holds two definitions with the same name, and a session
server already holding the name keeps its old definition (`server.tool`
throws on the duplicate and the catch discards the update). -/
theorem registerTool_collision_counterexample :
    ((registerTool [⟨"alpha", "old"⟩] [("s1", ⟨[⟨"alpha", "old"⟩]⟩)]
        "alpha" (some "new")).1.filter (fun t => t.name = "alpha")).length = 2 ∧
    (registerTool [⟨"alpha", "old"⟩] [("s1", ⟨[⟨"alpha", "old"⟩]⟩)]
        "alpha" (some "new")).2.lookup "s1" = some ⟨[⟨"alpha", "old"⟩]⟩ := by
  constructor <;> rfl

/-- C8 amended: a dynamic registration appends the new definition to the
registry (a name collision therefore leaves both definitions in the
registry), and registration is attempted with every server in the
`sessions` map — a server that does not yet hold the name gains the new
definition, while a server already holding it keeps its existing
definition. -/
theorem registerTool_append_and_propagate (reg : List ToolDef)
    (sessions : List (String × McpServerM)) (name : String)
    (schemaDescription : Option String) :
    (registerTool reg sessions name schemaDescription).1 =
      reg ++ [⟨name, jsOrString schemaDescription "No description provided"⟩] ∧
    ((registerTool reg sessions name schemaDescription).1.filter
        (fun t => t.name = name)).length =
      (reg.filter (fun t => t.name = name)).length + 1 ∧
    (∀ p ∈ sessions, p.2.tools.any (fun u => u.name = name) = true →
      (p.1, p.2) ∈ (registerTool reg sessions name schemaDescription).2) ∧
    (∀ p ∈ sessions, p.2.tools.any (fun u => u.name = name) = false →
      (p.1, McpServerM.mk
          (p.2.tools ++ [⟨name, jsOrString schemaDescription "No description provided"⟩])) ∈
        (registerTool reg sessions name schemaDescription).2) := by
  refine ⟨rfl, ?_, ?_, ?_⟩
  · simp [registerTool, List.filter_append]
  · intro p hp hname
    have : (p.1,
        match p.2.tool ⟨name, jsOrString schemaDescription "No description provided"⟩ with
        | .ok srv2 => srv2
        | .error _ => p.2) ∈ (registerTool reg sessions name schemaDescription).2 :=
      List.mem_map_of_mem _ hp
    rwa [show p.2.tool ⟨name, jsOrString schemaDescription "No description provided"⟩ =
        .error s!"Tool {name} is already registered" from by
      unfold McpServerM.tool
      rw [if_pos hname]] at this
  · intro p hp hname
    have : (p.1,
        match p.2.tool ⟨name, jsOrString schemaDescription "No description provided"⟩ with
        | .ok srv2 => srv2
        | .error _ => p.2) ∈ (registerTool reg sessions name schemaDescription).2 :=
      List.mem_map_of_mem _ hp
    rwa [show p.2.tool ⟨name, jsOrString schemaDescription "No description provided"⟩ =
        .ok ⟨p.2.tools ++ [⟨name, jsOrString schemaDescription "No description provided"⟩]⟩ from by
      unfold McpServerM.tool
      rw [if_neg (by simp [hname])]] at this

/-- Witness for `registerTool_append_and_propagate`: one session holding
the colliding name, one session without it. -/
theorem registerTool_append_and_propagate_witness :
    (registerTool [⟨"alpha", "old"⟩]
        [("s1", ⟨[⟨"alpha", "old"⟩]⟩), ("s2", ⟨[]⟩)] "alpha" none).1 =
      [⟨"alpha", "old"⟩, ⟨"alpha", "No description provided"⟩] ∧
    ("s1", McpServerM.mk [⟨"alpha", "old"⟩]) ∈
      (registerTool [⟨"alpha", "old"⟩]
        [("s1", ⟨[⟨"alpha", "old"⟩]⟩), ("s2", ⟨[]⟩)] "alpha" none).2 ∧
    ("s2", McpServerM.mk [⟨"alpha", "No description provided"⟩]) ∈
      (registerTool [⟨"alpha", "old"⟩]
        [("s1", ⟨[⟨"alpha", "old"⟩]⟩), ("s2", ⟨[]⟩)] "alpha" none).2 := by
  have h := registerTool_append_and_propagate [⟨"alpha", "old"⟩]
    [("s1", ⟨[⟨"alpha", "old"⟩]⟩), ("s2", ⟨[]⟩)] "alpha" none
  refine ⟨h.1, ?_, ?_⟩
  · exact h.2.2.1 ("s1", ⟨[⟨"alpha", "old"⟩]⟩) (by simp) (by decide)
  · simpa using h.2.2.2 ("s2", ⟨[]⟩) (by simp) (by decide)

/-! ## Tool dispatch envelope
(per-tool try/catch wrapper, `src/mcp/server.ts` lines 76–92) -/

/-- The MCP tool-call envelope: the `text` of each content part, and
the `isError` flag (absent on the success shape, modeled `false`). -/
structure ToolCallResult where
  content : List String
  isError : Bool
deriving DecidableEq

/-- `JSON.stringify` applied to a string value: double-quoted with
`"`, `\` and newline escaped (the escapes the tool results here can
contain). -/
def jsonStringifyString (s : String) : String :=
  "\"" ++ (⟨s.data.foldr
    (fun c acc =>
      if c = '"' then '\\' :: '"' :: acc
      else if c = '\\' then '\\' :: '\\' :: acc
      else if c = '\n' then '\\' :: 'n' :: acc
      else c :: acc) []⟩ : String) ++ "\""

/-- The per-tool try/catch wrapper that `setupRoutes` installs around
every registry handler: a resolved value is JSON-stringified into a
single text content part; a thrown error is caught and converted into a
text content part carrying the `Error`'s message, flagged
`isError: true`.  The wrapper is a total function into
`ToolCallResult`, so a throwing handler can never escape the dispatch
boundary as an unhandled fault. -/
def wrapToolHandler {A : Type} (handler : A → Except String String) (args : A) :
    ToolCallResult :=
  match handler args with
  | .ok r => { content := [jsonStringifyString r], isError := false }
  | .error e => { content := [e], isError := true }

/-- C5: a handler that throws during invocation is caught at the
dispatch boundary and converted into an error envelope — a content
payload carrying the exception's message with the error flag set — of
the same `ToolCallResult` shape as a declared failure; `wrapToolHandler`
being total, the exception never propagates out of the dispatch
boundary. -/
theorem wrapToolHandler_catches_throw {A : Type}
    (handler : A → Except String String) (args : A) (msg : String)
    (h : handler args = .error msg) :
    wrapToolHandler handler args = { content := [msg], isError := true } := by
  unfold wrapToolHandler
  rw [h]

/-- Witness for `wrapToolHandler_catches_throw`: a handler that always
throws `"boom"`. -/
theorem wrapToolHandler_catches_throw_witness :
    wrapToolHandler (fun _ : Unit => .error "boom") () =
      { content := ["boom"], isError := true } :=
  wrapToolHandler_catches_throw (fun _ : Unit => .error "boom") () "boom" rfl

/-! ## Terminal tools (`src/tools/terminalTools.ts`) -/

/-- The module-level terminal state of `terminalTools.ts`: the stored
`lastCommandOutput` and whether the shared `terminal` exists and has not
exited. -/
structure TermState where
  lastCommandOutput : String
  terminalLive : Bool
deriving DecidableEq

/-- Observable terminal-side actions. -/
inductive TermEvent
  | createTerminal (cwd : String)
  | sendText (text : String)
  | execProcess (command : String) (cwd : String)
deriving DecidableEq

/-- `executeTerminalCommand(command, cwd?, captureOutput)`
(`terminalTools.ts` lines 560–634).  The `child_process.exec` callback
is abstracted as `exec command workingDir`, giving the string the
wrapped promise resolves with (the success/`Error (exit code …)` text).
Without `captureOutput` the command is sent to the visible terminal and
the stored output is cleared; with it the command is run through
`child_process.exec`, the output stored, and the command echoed to the
terminal. -/
def executeTerminalCommand (exec : String → String → String)
    (workspaceRoot : String) (command : String) (cwd : Option String)
    (captureOutput : Bool) (st : TermState) :
    String × TermState × List TermEvent :=
  let workingDir := jsOrString cwd workspaceRoot
  let ensureTerminal : List TermEvent :=
    if !st.terminalLive then [TermEvent.createTerminal workingDir]
    else
      match cwd with
      | some c =>
        if c = "" then [] else [TermEvent.sendText ("cd \"" ++ c ++ "\"")]
      | none => []
  if !captureOutput then
    (s!"Command executed in terminal: {command}",
     { lastCommandOutput := "", terminalLive := true },
     ensureTerminal ++ [TermEvent.sendText command])
  else
    let result := exec command workingDir
    (s!"Command executed: {command}",
     { lastCommandOutput := result, terminalLive := true },
     TermEvent.execProcess command workingDir :: ensureTerminal ++
       [TermEvent.sendText command])

/-- `readTerminalOutput(maxLines?)` (`terminalTools.ts` lines 641–652).
`if (maxLines && maxLines > 0)` is JavaScript truthiness: `0` is falsy
and a negative value fails the comparison, so only a positive
`maxLines` truncates. -/
def readTerminalOutput (maxLines : Option Int) (st : TermState) : String :=
  if st.lastCommandOutput = "" then
    "No terminal output available. Please run a command with captureOutput=true first."
  else
    match maxLines with
    | some n =>
      if n ≠ 0 ∧ 0 < n then
        String.intercalate "\n"
          ((splitChar '\n' st.lastCommandOutput).take n.toNat)
      else
        st.lastCommandOutput
    | none => st.lastCommandOutput

/-- `RunCommandParams`: `z.infer<typeof runCommandSchema>`. -/
structure RunCommandParams where
  command : String
  cwd : Option String
  captureOutput : Option Bool
deriving DecidableEq

/-- The `run_command` case of `executeTerminalTool`
(`terminalTools.ts` lines 664–671), on already-validated parameters:
`params.captureOutput === true` collapses the optional flag. -/
def executeTerminalToolRun (exec : String → String → String)
    (workspaceRoot : String) (p : RunCommandParams) (st : TermState) :
    String × TermState × List TermEvent :=
  executeTerminalCommand exec workspaceRoot p.command p.cwd
    (p.captureOutput = some true) st

/-- The modal warning of `showCommandApprovalDialog`
(`toolRegistry.ts` lines 120–129). -/
def approvalDialogMessage (command : String) : String :=
  s!"Do you want to run this command?\n\n{command}"

/-- Events observed while the `run_command` registry handler runs. -/
inductive RunEvent
  | dialogShown (message : String)
  | term (e : TermEvent)
deriving DecidableEq

/-- The `run_command` registry handler (`toolRegistry.ts` lines 39–54):
show the approval dialog carrying the literal command; if the user's
button is not `'Yes, run it'`, return the benign cancellation string
without touching the terminal, otherwise run the command through
`executeTerminalTool` and return its result.  `userChoice` is the
button the user clicks (`none` when the dialog is dismissed). -/
def runCommandHandler (exec : String → String → String)
    (workspaceRoot : String) (userChoice : Option String)
    (p : RunCommandParams) (st : TermState) :
    String × TermState × List RunEvent :=
  let msg := approvalDialogMessage p.command
  if userChoice = some "Yes, run it" then
    let r := executeTerminalToolRun exec workspaceRoot p st
    (r.1, r.2.1, RunEvent.dialogShown msg :: r.2.2.map RunEvent.term)
  else
    ("Command execution cancelled by user.", st, [RunEvent.dialogShown msg])

/-- The dialog message is the fixed question followed by the literal
command text. -/
theorem approvalDialogMessage_eq (command : String) :
    approvalDialogMessage command =
      "Do you want to run this command?\n\n" ++ command := by
  show (toString "Do you want to run this command?\n\n" ++ toString command ++
      toString "" : String) = _
  rw [show (toString "Do you want to run this command?\n\n" : String) =
    "Do you want to run this command?\n\n" from rfl,
    show (toString command : String) = command from rfl,
    show (toString "" : String) = "" from rfl,
    String.append_empty]

/-- C6: every `run_command` invocation first shows the approval dialog
carrying the literal command text (it is the head of the event trace, so
it precedes any execution); cancelling returns the success-shaped
`"Command execution cancelled by user."` with the terminal state
untouched and no terminal event at all; approving runs the command
through the terminal executor and returns its result. -/
theorem runCommandHandler_approval_gate (exec : String → String → String)
    (workspaceRoot : String) (userChoice : Option String)
    (p : RunCommandParams) (st : TermState) :
    (runCommandHandler exec workspaceRoot userChoice p st).2.2.head? =
      some (RunEvent.dialogShown
        ("Do you want to run this command?\n\n" ++ p.command)) ∧
    (userChoice ≠ some "Yes, run it" →
      runCommandHandler exec workspaceRoot userChoice p st =
        ("Command execution cancelled by user.", st,
         [RunEvent.dialogShown
           ("Do you want to run this command?\n\n" ++ p.command)])) ∧
    (userChoice = some "Yes, run it" →
      runCommandHandler exec workspaceRoot userChoice p st =
        ((executeTerminalToolRun exec workspaceRoot p st).1,
         (executeTerminalToolRun exec workspaceRoot p st).2.1,
         RunEvent.dialogShown ("Do you want to run this command?\n\n" ++ p.command) ::
           (executeTerminalToolRun exec workspaceRoot p st).2.2.map RunEvent.term)) := by
  refine ⟨?_, ?_, ?_⟩
  · unfold runCommandHandler
    by_cases h : userChoice = some "Yes, run it" <;>
      simp [h, approvalDialogMessage_eq]
  · intro h
    unfold runCommandHandler
    simp [h, approvalDialogMessage_eq]
  · intro h
    unfold runCommandHandler
    simp [h, approvalDialogMessage_eq]

/-- Witness for `runCommandHandler_approval_gate`: cancelling
(`'Cancel'` clicked) and approving (`'Yes, run it'` clicked) a
`git status` call. -/
theorem runCommandHandler_approval_gate_witness :
    runCommandHandler (fun _ _ => "out") "/w" (some "Cancel")
        ⟨"git status", none, none⟩ ⟨"", false⟩ =
      ("Command execution cancelled by user.", ⟨"", false⟩,
       [RunEvent.dialogShown
         ("Do you want to run this command?\n\n" ++ "git status")]) ∧
    runCommandHandler (fun _ _ => "out") "/w" (some "Yes, run it")
        ⟨"git status", none, none⟩ ⟨"", false⟩ =
      ((executeTerminalToolRun (fun _ _ => "out") "/w"
          ⟨"git status", none, none⟩ ⟨"", false⟩).1,
       (executeTerminalToolRun (fun _ _ => "out") "/w"
          ⟨"git status", none, none⟩ ⟨"", false⟩).2.1,
       RunEvent.dialogShown ("Do you want to run this command?\n\n" ++ "git status") ::
         (executeTerminalToolRun (fun _ _ => "out") "/w"
            ⟨"git status", none, none⟩ ⟨"", false⟩).2.2.map RunEvent.term) :=
  ⟨(runCommandHandler_approval_gate (fun _ _ => "out") "/w" (some "Cancel")
      ⟨"git status", none, none⟩ ⟨"", false⟩).2.1 (by decide),
   (runCommandHandler_approval_gate (fun _ _ => "out") "/w" (some "Yes, run it")
      ⟨"git status", none, none⟩ ⟨"", false⟩).2.2 rfl⟩

/-- No piece produced by `splitChar` contains the separator. -/
theorem splitChar_pieces_no_sep (c : Char) (s : String) :
    ∀ piece ∈ splitChar c s, c ∉ piece.data := by
  have H : ∀ (cs acc : List Char), c ∉ acc →
      ∀ piece ∈ splitChar.go c cs acc, c ∉ piece := by
    intro cs
    induction cs with
    | nil =>
      intro acc hacc piece hp
      simp [splitChar.go] at hp
      subst hp
      simpa using hacc
    | cons x xs ih =>
      intro acc hacc piece hp
      simp only [splitChar.go] at hp
      by_cases hx : x = c
      · rw [if_pos hx] at hp
        rcases List.mem_cons.mp hp with h | h
        · subst h; simpa using hacc
        · exact ih [] (by simp) piece h
      · rw [if_neg hx] at hp
        refine ih (x :: acc) ?_ piece hp
        intro hc
        rcases List.mem_cons.mp hc with h | h
        · exact hx h.symm
        · exact hacc h
  intro piece hp
  unfold splitChar at hp
  simp only [List.mem_map] at hp
  obtain ⟨cs, hcs, hmk⟩ := hp
  subst hmk
  exact H s.data [] (by simp) cs hcs

/-- `splitChar.go` on a separator-free run yields one piece. -/
theorem splitChar_go_no_sep (c : Char) :
    ∀ (u acc : List Char), (∀ x ∈ u, x ≠ c) →
      splitChar.go c u acc = [acc.reverse ++ u] := by
  intro u
  induction u with
  | nil => intro acc _; simp [splitChar.go]
  | cons x xs ih =>
    intro acc hu
    have hx : x ≠ c := hu x (by simp)
    simp only [splitChar.go, if_neg hx]
    rw [ih (x :: acc) (fun y hy => hu y (by simp [hy]))]
    simp

/-- `splitChar.go` cuts at the first separator after a separator-free
run. -/
theorem splitChar_go_sep_split (c : Char) :
    ∀ (u v acc : List Char), (∀ x ∈ u, x ≠ c) →
      splitChar.go c (u ++ c :: v) acc =
        (acc.reverse ++ u) :: splitChar.go c v [] := by
  intro u
  induction u with
  | nil =>
    intro v acc _
    simp [splitChar.go]
  | cons x xs ih =>
    intro v acc hu
    have hx : x ≠ c := hu x (by simp)
    simp only [List.cons_append, splitChar.go, if_neg hx]
    show splitChar.go c (xs ++ c :: v) (x :: acc) = _
    rw [ih v (x :: acc) (fun y hy => hu y (by simp [hy]))]
    simp

/-- `splitChar.go` never produces an empty piece list. -/
theorem splitChar_go_ne_nil (c : Char) :
    ∀ (cs acc : List Char), splitChar.go c cs acc ≠ [] := by
  intro cs
  induction cs with
  | nil => intro acc; simp [splitChar.go]
  | cons x xs ih =>
    intro acc
    simp only [splitChar.go]
    by_cases hx : x = c
    · rw [if_pos hx]; simp
    · rw [if_neg hx]; exact ih (x :: acc)

/-- `splitChar` never returns the empty list. -/
theorem splitChar_ne_nil (c : Char) (s : String) : splitChar c s ≠ [] := by
  unfold splitChar
  intro h
  exact splitChar_go_ne_nil c s.data [] (by simpa using h)

/-- The character-level rendering of `String.intercalate`'s
accumulator. -/
theorem intercalate_go_data (s : String) :
    ∀ (l : List String) (acc : String),
      (String.intercalate.go acc s l).data =
        acc.data ++ (l.map (fun x => s.data ++ x.data)).flatten := by
  intro l
  induction l with
  | nil => intro acc; simp [String.intercalate.go]
  | cons a as ih =>
    intro acc
    simp only [String.intercalate.go]
    rw [ih]
    simp

/-- Splitting undoes joining: `splitChar` recovers exactly the
separator-free pieces that `String.intercalate` glued with the
separator. -/
theorem splitChar_intercalate (c : Char) (l : List String) (hne : l ≠ [])
    (hno : ∀ p ∈ l, c ∉ p.data) :
    splitChar c (String.intercalate ⟨[c]⟩ l) = l := by
  obtain ⟨a, as, rfl⟩ := List.exists_cons_of_ne_nil hne
  have H : ∀ (as : List String) (a : String), (∀ p ∈ a :: as, c ∉ p.data) →
      splitChar.go c ((String.intercalate ⟨[c]⟩ (a :: as)).data) [] =
        (a :: as).map String.data := by
    intro as
    induction as with
    | nil =>
      intro a hno2
      show splitChar.go c a.data [] = _
      rw [splitChar_go_no_sep c a.data []
        (fun x hx hxc => (hno2 a (by simp)) (hxc ▸ hx))]
      simp
    | cons b bs ih =>
      intro a hno2
      have hdata : (String.intercalate ⟨[c]⟩ (a :: b :: bs)).data =
          a.data ++ c :: (String.intercalate ⟨[c]⟩ (b :: bs)).data := by
        show (String.intercalate.go a ⟨[c]⟩ (b :: bs)).data = _
        rw [intercalate_go_data]
        show _ = a.data ++ c :: (String.intercalate.go b ⟨[c]⟩ bs).data
        rw [intercalate_go_data]
        simp
      rw [hdata,
        splitChar_go_sep_split c a.data _ []
          (fun x hx hxc => (hno2 a (by simp)) (hxc ▸ hx)),
        ih b (fun p hp => hno2 p (by simp at hp ⊢; tauto))]
      simp
  unfold splitChar
  rw [H as a hno, List.map_map,
    show ((fun cs => (⟨cs⟩ : String)) ∘ String.data) = id from funext fun p => rfl]
  simp

/-- C10: a `run_command` executed without `captureOutput` clears the
stored output, so any later `read_terminal_output` — whatever its
`maxLines` — answers the fixed no-output message; and on a state with
output available, a positive `maxLines` returns the first `maxLines`
lines of it: the result is the `\n`-join of the first `maxLines` pieces
of the output's `\n`-split, and (third conjunct) re-splitting the result
gives exactly those first `maxLines` lines. -/
theorem terminalOutput_reset_and_truncation (exec : String → String → String)
    (workspaceRoot command : String) (cwd : Option String) (st : TermState) :
    (∀ maxLines : Option Int,
      readTerminalOutput maxLines
          (executeTerminalCommand exec workspaceRoot command cwd false st).2.1 =
        "No terminal output available. Please run a command with captureOutput=true first.") ∧
    (∀ (st' : TermState) (n : Int), st'.lastCommandOutput ≠ "" → 0 < n →
      readTerminalOutput (some n) st' =
        String.intercalate "\n"
          ((splitChar '\n' st'.lastCommandOutput).take n.toNat)) ∧
    (∀ (st' : TermState) (n : Int), st'.lastCommandOutput ≠ "" → 0 < n →
      splitChar '\n' (readTerminalOutput (some n) st') =
        (splitChar '\n' st'.lastCommandOutput).take n.toNat) := by
  have htrunc : ∀ (st' : TermState) (n : Int), st'.lastCommandOutput ≠ "" →
      0 < n →
      readTerminalOutput (some n) st' =
        String.intercalate "\n"
          ((splitChar '\n' st'.lastCommandOutput).take n.toNat) := by
    intro st' n hne hpos
    unfold readTerminalOutput
    rw [if_neg hne]
    show (if n ≠ 0 ∧ 0 < n then _ else _) = _
    rw [if_pos ⟨by omega, hpos⟩]
  refine ⟨?_, htrunc, ?_⟩
  · intro maxLines
    have hclear :
        (executeTerminalCommand exec workspaceRoot command cwd false st).2.1.lastCommandOutput = "" := by
      unfold executeTerminalCommand
      simp
    unfold readTerminalOutput
    rw [if_pos hclear]
  · intro st' n hne hpos
    rw [htrunc st' n hne hpos,
      show ("\n" : String) = (⟨['\n']⟩ : String) from rfl]
    refine splitChar_intercalate '\n' _ ?_ ?_
    · intro h
      rcases List.take_eq_nil_iff.mp h with h' | h'
      · omega
      · exact splitChar_ne_nil '\n' st'.lastCommandOutput h'
    · intro p hp
      exact splitChar_pieces_no_sep '\n' st'.lastCommandOutput p
        (List.take_subset _ _ hp)

/-- Witness for `terminalOutput_reset_and_truncation`: after running
`ls` uncaptured from a state holding old output, reading gives the fixed
message; reading 2 lines from `"a\nb\nc"` gives `"a\nb"`, whose lines
are the first two of the output. -/
theorem terminalOutput_reset_and_truncation_witness :
    readTerminalOutput (some 5)
        (executeTerminalCommand (fun _ _ => "") "/w" "ls" none false
          ⟨"old output", true⟩).2.1 =
      "No terminal output available. Please run a command with captureOutput=true first." ∧
    readTerminalOutput (some 2) ⟨"a\nb\nc", true⟩ = "a" ++ "\n" ++ "b" ∧
    splitChar '\n' (readTerminalOutput (some 2) ⟨"a\nb\nc", true⟩) = ["a", "b"] := by
  refine ⟨?_, ?_, ?_⟩
  · exact (terminalOutput_reset_and_truncation (fun _ _ => "") "/w" "ls" none
      ⟨"old output", true⟩).1 (some 5)
  · have h := (terminalOutput_reset_and_truncation (fun _ _ => "") "/w" "ls" none
      ⟨"old output", true⟩).2.1 ⟨"a\nb\nc", true⟩ 2 (by decide) (by decide)
    rw [h]
    decide
  · have h := (terminalOutput_reset_and_truncation (fun _ _ => "") "/w" "ls" none
      ⟨"old output", true⟩).2.2 ⟨"a\nb\nc", true⟩ 2 (by decide) (by decide)
    rw [h]
    decide

/-! ## File tools (`src/tools/fileTools.ts`)

The workspace filesystem is a finite store of files: normalized absolute
path, content, and readability (what `fs.access(…, R_OK)` observes).
`executeTool` threads the store and records writes, deletions, content
reads and modal dialogs in a trace; `stat`/`access` probes are metadata
queries against the store.  Modal warning dialogs take the clicked
button (`dialogChoice`, `none` = dismissed) as a parameter; each
`executeTool` call shows at most one dialog. -/

/-- One file of the workspace store. -/
structure FileEntry where
  path : List String
  content : String
  readable : Bool
deriving DecidableEq

/-- The filesystem visible to the file tools. -/
abbrev FileSystem := List FileEntry

/-- `vscode.workspace.fs.stat` succeeds: the file exists. -/
def FileSystem.statOk (fs : FileSystem) (p : List String) : Bool :=
  fs.any (fun e => e.path = p)

/-- `fs.access(p, R_OK)` succeeds: the file exists and is readable. -/
def FileSystem.accessOk (fs : FileSystem) (p : List String) : Bool :=
  fs.any (fun e => e.path = p && e.readable)

/-- The stored content of a file, when present. -/
def FileSystem.contentOf (fs : FileSystem) (p : List String) : Option String :=
  (fs.find? (fun e => e.path = p)).map FileEntry.content

/-- `vscode.workspace.fs.writeFile`: overwrite the entry or create a
fresh (readable) one. -/
def FileSystem.writeFile (fs : FileSystem) (p : List String) (c : String) :
    FileSystem :=
  if fs.any (fun e => e.path = p) then
    fs.map (fun e => if e.path = p then { e with content := c } else e)
  else
    fs ++ [⟨p, c, true⟩]

/-- `vscode.workspace.fs.delete`: drop the entry. -/
def FileSystem.deleteFile (fs : FileSystem) (p : List String) : FileSystem :=
  fs.filter (fun e => e.path ≠ p)

/-- A destructive or observable filesystem action. -/
inductive FsEffect
  | write (path : List String) (content : String)
  | delete (path : List String)
  | read (path : List String)
deriving DecidableEq

/-- The path an effect touches. -/
def FsEffect.path : FsEffect → List String
  | .write p _ => p
  | .delete p => p
  | .read p => p

/-- One observable step of a file-tool run: a modal dialog or a
filesystem effect. -/
inductive FileEvent
  | dialog (message : String)
  | fs (e : FsEffect)
deriving DecidableEq

/-- The path a trace event touches on disk (`none` for dialogs). -/
def FileEvent.touches : FileEvent → Option (List String)
  | .dialog _ => none
  | .fs e => some e.path

/-- A JSON value as the raw tool inputs carry them (the shapes the zod
schemas of `fileTools.ts` distinguish). -/
inductive JVal
  | str (s : String)
  | num (n : Int)
  | jbool (b : Bool)
  | null
deriving DecidableEq

/-- A raw tool-call input: a JSON object. -/
structure RawInput where
  fields : List (String × JVal)
deriving DecidableEq

/-- Field lookup on a raw input. -/
def RawInput.get (i : RawInput) (k : String) : Option JVal :=
  i.fields.lookup k

/-- `z.infer<typeof createFileSchema>` (and of `updateFileSchema`). -/
structure PathContentParams where
  path : String
  content : String
deriving DecidableEq

/-- `createFileSchema.parse` / `updateFileSchema.parse`: both fields
must be present as strings, anything else throws a `ZodError` (whose
issue rendering, produced by the external zod library, is kept as a
fixed marker text). -/
def parsePathContent (schemaName : String) (i : RawInput) :
    Except String PathContentParams :=
  match i.get "path", i.get "content" with
  | some (.str p), some (.str c) => .ok ⟨p, c⟩
  | _, _ => .error s!"ZodError: invalid input for {schemaName}"

/-- `deleteFileSchema.parse` / `readFileSchema.parse`: a string `path`. -/
def parsePathOnly (schemaName : String) (i : RawInput) : Except String String :=
  match i.get "path" with
  | some (.str p) => .ok p
  | _ => .error s!"ZodError: invalid input for {schemaName}"

/-- `searchFilesSchema.parse`: a string `query`. -/
def parseQuery (i : RawInput) : Except String String :=
  match i.get "query" with
  | some (.str q) => .ok q
  | _ => .error "ZodError: invalid input for searchFilesSchema"

/-- `listFilesSchema.parse`: an optional numeric `maxResults`. -/
def parseMaxResults (i : RawInput) : Except String (Option Int) :=
  match i.get "maxResults" with
  | none => .ok none
  | some (.num n) => .ok (some n)
  | some _ => .error "ZodError: invalid input for listFilesSchema"

/-- The `**/node_modules/**` exclusion of `findFiles`: some
`node_modules` directory lies strictly above the file. -/
def excludedByNodeModules (rel : List String) : Bool :=
  rel.dropLast.any (fun d => d = "node_modules")

/-- `vscode.workspace.findFiles(pattern, '**/node_modules/**', max)`:
the workspace files (paths under the root, in store order) whose
root-relative segments match the pattern predicate and are not under a
`node_modules` directory, truncated to `max`. -/
def findFiles (fs : FileSystem) (root : List String)
    (pat : List String → Bool) (maxResults : Nat) : List (List String) :=
  (fs.filterMap (fun e =>
    if root.isPrefixOf e.path then
      let rel := e.path.drop root.length
      if !excludedByNodeModules rel && pat rel then some e.path else none
    else none)).take maxResults

/-- The pattern cascade of `read_file` —
`**/fn`, `fn`, `*/fn`, `cmd/fn`, `src/fn` — stopping at the first
pattern with matches (`fileTools.ts` lines 332–347). -/
def findFilesPatterns (fs : FileSystem) (root : List String)
    (fileName : String) : List (List String) :=
  firstHit
    [findFiles fs root (fun rel => rel.getLast? == some fileName) 100,
     findFiles fs root (fun rel => rel == [fileName]) 100,
     findFiles fs root
       (fun rel => rel.length == 2 && rel.getLast? == some fileName) 100,
     findFiles fs root (fun rel => rel == ["cmd", fileName]) 100,
     findFiles fs root (fun rel => rel == ["src", fileName]) 100]
where
  firstHit : List (List (List String)) → List (List String)
    | [] => []
    | l :: ls => if l.isEmpty then firstHit ls else l

/-- `findFileRecursively(rootPath, fileName)` (`fileTools.ts` lines
141–165): depth-first search under the root skipping `node_modules` and
dot-directories, matching the basename case-insensitively; modeled as
the first matching file in store enumeration order. -/
def findFileRecursively (fs : FileSystem) (root : List String)
    (fileName : String) : Option (List String) :=
  (fs.find? (fun e =>
    root.isPrefixOf e.path &&
    (let rel := e.path.drop root.length
     rel.dropLast.all (fun d => d ≠ "node_modules" && !(strStartsWith d ".")) &&
     strToLower ((rel.getLast?).getD "") == strToLower fileName))).map
    FileEntry.path

/-- The `"create_file"` case of `executeTool` (`fileTools.ts` lines
192–235): validate, reject absolute paths, join with the root and
reject a relative rendering that starts with `..` (the
`path.isAbsolute(relativePath)` companion check can never fire, the
relative of two absolute paths never being absolute), confirm an
overwrite of an existing file through a modal dialog, then write. -/
def execCreateFile (fs : FileSystem) (root : List String)
    (dialogChoice : Option String) (input : RawInput) :
    Except String String × FileSystem × List FileEvent :=
  match parsePathContent "createFileSchema" input with
  | .error e => (.error e, fs, [])
  | .ok params =>
    if isAbsolutePath params.path then
      (.error "Absolute paths are not allowed. Please provide a relative path to the workspace root.",
       fs, [])
    else
      let filePath := joinPath root params.path
      if relStartsWithDotDot (relSegs root filePath) then
        (.error "Path is outside the workspace", fs, [])
      else if fs.statOk filePath then
        let msg := s!"File {params.path} already exists. Do you want to overwrite it?"
        if dialogChoice = some "Yes" then
          (.ok s!"File {params.path} has been created or updated.",
           fs.writeFile filePath params.content,
           [.dialog msg, .fs (.write filePath params.content)])
        else
          (.ok s!"Operation cancelled: File {params.path} was not overwritten.",
           fs, [.dialog msg])
      else
        (.ok s!"File {params.path} has been created or updated.",
         fs.writeFile filePath params.content,
         [.fs (.write filePath params.content)])

/-- The `"update_file"` case (`fileTools.ts` lines 236–278): as
`create_file`, but the file must already exist and the modal is always
shown before the write. -/
def execUpdateFile (fs : FileSystem) (root : List String)
    (dialogChoice : Option String) (input : RawInput) :
    Except String String × FileSystem × List FileEvent :=
  match parsePathContent "updateFileSchema" input with
  | .error e => (.error e, fs, [])
  | .ok params =>
    if isAbsolutePath params.path then
      (.error "Absolute paths are not allowed. Please provide a relative path to the workspace root.",
       fs, [])
    else
      let filePath := joinPath root params.path
      if relStartsWithDotDot (relSegs root filePath) then
        (.error "Path is outside the workspace", fs, [])
      else if !fs.statOk filePath then
        (.error s!"File {params.path} does not exist. Use create_file instead.",
         fs, [])
      else
        let msg := s!"Are you sure you want to update file {params.path}? This will replace its entire contents."
        if dialogChoice = some "Yes" then
          (.ok s!"File {params.path} has been updated.",
           fs.writeFile filePath params.content,
           [.dialog msg, .fs (.write filePath params.content)])
        else
          (.ok s!"Operation cancelled: File {params.path} was not updated.",
           fs, [.dialog msg])

/-- The `"delete_file"` case (`fileTools.ts` lines 279–312): no
existence probe — the modal is shown, then `vscode.workspace.fs.delete`
runs; deleting a missing file makes that call reject (the editor's
`FileSystemError`, kept as a marker text), caught by the outer
wrapper. -/
def execDeleteFile (fs : FileSystem) (root : List String)
    (dialogChoice : Option String) (input : RawInput) :
    Except String String × FileSystem × List FileEvent :=
  match parsePathOnly "deleteFileSchema" input with
  | .error e => (.error e, fs, [])
  | .ok p =>
    if isAbsolutePath p then
      (.error "Absolute paths are not allowed. Please provide a relative path to the workspace root.",
       fs, [])
    else
      let deletePath := joinPath root p
      if relStartsWithDotDot (relSegs root deletePath) then
        (.error "Path is outside the workspace", fs, [])
      else
        let msg := s!"Are you sure you want to delete file {p}?"
        if dialogChoice = some "Yes" then
          if fs.statOk deletePath then
            (.ok s!"File {p} has been deleted.",
             fs.deleteFile deletePath,
             [.dialog msg, .fs (.delete deletePath)])
          else
            (.error "FileSystemError: EntryNotFound", fs, [.dialog msg])
        else
          (.ok s!"Operation cancelled: File {p} was not deleted.",
           fs, [.dialog msg])

/-- The selection phase of `read_file` (`fileTools.ts` lines 321–375):
the exact join when it is readable, else the basename search through
the pattern cascade and the recursive scan, erroring on no match,
several matches, or an unreadable pick. -/
def readFileSelect (fs : FileSystem) (root : List String) (p : String) :
    Except String (List String) :=
  let exactPath := joinPath root p
  let fileName := basenameOf p
  if fs.accessOk exactPath then .ok exactPath
  else
    match findFilesPatterns fs root fileName with
    | [] =>
      match findFileRecursively fs root fileName with
      | none =>
        .error s!"File {p} not found in workspace. Try 'list files' to see all files or 'search files {fileName}' to locate it. Check if the file is excluded in settings (files.exclude) or if the workspace needs to be re-opened."
      | some found =>
        if fs.accessOk found then .ok found
        else
          .error s!"Found {p} at {renderRel (relSegs root found)}, but cannot read it due to permissions or system issues. Try checking file permissions or running VS Code with elevated privileges."
    | [u] =>
      if fs.accessOk u then .ok u
      else
        .error s!"Found {p} at {renderRel (relSegs root u)}, but cannot read it due to permissions or system issues. Try checking file permissions or running VS Code with elevated privileges."
    | us =>
      let paths :=
        String.intercalate ", " (us.map (fun u => renderRel (relSegs root u)))
      .error s!"Multiple files named {fileName} found: {paths}. Please specify the full path (e.g., cmd/{fileName} or src/{fileName})."

/-- The `"read_file"` case (`fileTools.ts` lines 313–408): reject
absolute paths, run the selection phase, reject a pick whose relative
rendering leaves the workspace, then read the content (`showContents`
selecting content vs `'Read successful'`). -/
def execReadFile (fs : FileSystem) (root : List String) (input : RawInput)
    (showContents : Bool) :
    Except String String × FileSystem × List FileEvent :=
  match parsePathOnly "readFileSchema" input with
  | .error e => (.error e, fs, [])
  | .ok p =>
    if isAbsolutePath p then
      (.error "Absolute paths are not allowed. Please provide a relative path to the workspace root.",
       fs, [])
    else
      match readFileSelect fs root p with
      | .error e => (.error e, fs, [])
      | .ok uri =>
        if relStartsWithDotDot (relSegs root uri) then
          (.error "Found file is outside the workspace", fs, [])
        else
          match fs.contentOf uri with
          | some c =>
            ((if showContents then .ok c else .ok "Read successful"), fs,
             [.fs (.read uri)])
          | none =>
            (.error s!"Found {p} at {renderRel (relSegs root uri)}, but cannot read it: missing. Try checking file permissions or running VS Code with elevated privileges.",
             fs, [])

/-- The `"search_files"` case (`fileTools.ts` lines 409–425): files
whose basename contains the query, rendered root-relative and joined
with newlines. -/
def execSearchFiles (fs : FileSystem) (root : List String) (input : RawInput) :
    Except String String × FileSystem × List FileEvent :=
  match parseQuery input with
  | .error e => (.error e, fs, [])
  | .ok q =>
    let uris := findFiles fs root
      (fun rel => strContains ((rel.getLast?).getD "") q) 100
    (.ok (String.intercalate "\n" (uris.map (fun u => renderRel (relSegs root u)))),
     fs, [])

/-- The `"list_files"` case (`fileTools.ts` lines 426–453):
`params.maxResults || 100` (JavaScript falsiness: `0` falls back to
100), every workspace file with its readability status, prefixed by the
workspace-root and `files.exclude` diagnostics. -/
def execListFiles (fs : FileSystem) (root : List String)
    (excludePatternsJson : String) (input : RawInput) :
    Except String String × FileSystem × List FileEvent :=
  match parseMaxResults input with
  | .error e => (.error e, fs, [])
  | .ok mr =>
    let maxResults : Int :=
      match mr with
      | some n => if n ≠ 0 then n else 100
      | none => 100
    let listUris := findFiles fs root (fun _ => true) maxResults.toNat
    let listLines := listUris.map (fun u =>
      let status := if fs.accessOk u then "Readable" else "Not readable"
      s!"{renderRel (relSegs root u)} ({status})")
    let diagnostics :=
      s!"Workspace root: {renderAbs root}" ++ "\n" ++
        s!"Files.exclude: {excludePatternsJson}"
    (.ok (if listLines.length > 0 then
        diagnostics ++ "\n\nFiles:\n" ++ String.intercalate "\n" listLines
      else
        diagnostics ++ "\n\nNo files found in workspace."),
     fs, [])

/-- The `switch` of `executeTool` (`fileTools.ts` lines 191–456),
before the outer catch. -/
def executeToolSwitch (fs : FileSystem) (root : List String)
    (dialogChoice : Option String) (excludePatternsJson : String)
    (toolName : String) (input : RawInput) (showContents : Bool) :
    Except String String × FileSystem × List FileEvent :=
  if toolName = "create_file" then execCreateFile fs root dialogChoice input
  else if toolName = "update_file" then execUpdateFile fs root dialogChoice input
  else if toolName = "delete_file" then execDeleteFile fs root dialogChoice input
  else if toolName = "read_file" then execReadFile fs root input showContents
  else if toolName = "search_files" then execSearchFiles fs root input
  else if toolName = "list_files" then execListFiles fs root excludePatternsJson input
  else (.error s!"Unknown tool: {toolName}", fs, [])

/-- The re-thrown message of `executeTool`'s outer catch. -/
def wrapToolError (toolName msg : String) : String :=
  s!"Error executing tool {toolName}: {msg}"

/-- `executeTool(toolName, input, showContents)` (`fileTools.ts` lines
167–462): the switch wrapped in the catch that re-throws every error as
`Error executing tool {toolName}: {message}`.  The workspace is assumed
open (its root is `root`); with no workspace folder the function throws
before the switch, which no claim exercises. -/
def executeTool (fs : FileSystem) (root : List String)
    (dialogChoice : Option String) (excludePatternsJson : String)
    (toolName : String) (input : RawInput) (showContents : Bool) :
    Except String String × FileSystem × List FileEvent :=
  let r := executeToolSwitch fs root dialogChoice excludePatternsJson
    toolName input showContents
  match r.1 with
  | .error msg => (.error (wrapToolError toolName msg), r.2.1, r.2.2)
  | .ok v => (.ok v, r.2.1, r.2.2)

/-- Lifting a switch-level error through the outer catch. -/
theorem executeTool_of_switch_error (fs : FileSystem) (root : List String)
    (dialogChoice : Option String) (excl toolName : String) (input : RawInput)
    (showContents : Bool) (m : String) (fs2 : FileSystem) (tr : List FileEvent)
    (h : executeToolSwitch fs root dialogChoice excl toolName input showContents =
      (.error m, fs2, tr)) :
    executeTool fs root dialogChoice excl toolName input showContents =
      (.error (wrapToolError toolName m), fs2, tr) := by
  unfold executeTool
  rw [h]

/-- `execCreateFile` on a schema-valid input, written out as its
decision tree (all four branch outcomes). -/
theorem execCreateFile_eq (fs : FileSystem) (root : List String)
    (choice : Option String) (p c : String) :
    execCreateFile fs root choice ⟨[("path", .str p), ("content", .str c)]⟩ =
      (if isAbsolutePath p = true then
        (.error "Absolute paths are not allowed. Please provide a relative path to the workspace root.",
         fs, [])
      else if relStartsWithDotDot (relSegs root (joinPath root p)) = true then
        (.error "Path is outside the workspace", fs, [])
      else if fs.statOk (joinPath root p) = true then
        if choice = some "Yes" then
          (.ok s!"File {p} has been created or updated.",
           fs.writeFile (joinPath root p) c,
           [.dialog s!"File {p} already exists. Do you want to overwrite it?",
            .fs (.write (joinPath root p) c)])
        else
          (.ok s!"Operation cancelled: File {p} was not overwritten.", fs,
           [.dialog s!"File {p} already exists. Do you want to overwrite it?"])
      else
        (.ok s!"File {p} has been created or updated.",
         fs.writeFile (joinPath root p) c,
         [.fs (.write (joinPath root p) c)])) := rfl

/-- `runCommandSchema.parse` on a raw input: a string `command`, an
optional string `cwd`, an optional boolean `captureOutput` (unknown
keys are stripped); anything else throws a `ZodError` (kept as a marker
text, the issue rendering being zod's own). -/
def parseRunCommand (i : RawInput) : Except String RunCommandParams :=
  match i.get "command", i.get "cwd", i.get "captureOutput" with
  | some (.str cmd), none, none => .ok ⟨cmd, none, none⟩
  | some (.str cmd), some (.str c), none => .ok ⟨cmd, some c, none⟩
  | some (.str cmd), none, some (.jbool b) => .ok ⟨cmd, none, some b⟩
  | some (.str cmd), some (.str c), some (.jbool b) => .ok ⟨cmd, some c, some b⟩
  | _, _, _ => .error "ZodError: invalid input for runCommandSchema"

/-- `readTerminalOutputSchema.parse` on a raw input: an optional
numeric `maxLines`. -/
def parseReadTerminalOutput (i : RawInput) : Except String (Option Int) :=
  match i.get "maxLines" with
  | none => .ok none
  | some (.num n) => .ok (some n)
  | some _ => .error "ZodError: invalid input for readTerminalOutputSchema"

/-- The re-thrown message of `executeTerminalTool`'s catch. -/
def wrapTerminalToolError (toolName msg : String) : String :=
  s!"Error executing terminal tool {toolName}: {msg}"

/-- `executeTerminalTool(toolName, input)` (`terminalTools.ts` lines
660–684) on a raw input: validate against the tool's schema, dispatch
to `executeTerminalCommand` / `readTerminalOutput`, and re-throw every
error as `Error executing terminal tool {toolName}: {message}`.
Threads the terminal state and records the terminal events. -/
def executeTerminalTool (exec : String → String → String)
    (workspaceRoot : String) (toolName : String) (input : RawInput)
    (st : TermState) : Except String String × TermState × List TermEvent :=
  let r : Except String String × TermState × List TermEvent :=
    if toolName = "run_command" then
      match parseRunCommand input with
      | .error e => (.error e, st, [])
      | .ok params =>
        let out := executeTerminalCommand exec workspaceRoot params.command
          params.cwd (params.captureOutput = some true) st
        (.ok out.1, out.2.1, out.2.2)
    else if toolName = "read_terminal_output" then
      match parseReadTerminalOutput input with
      | .error e => (.error e, st, [])
      | .ok maxLines => (.ok (readTerminalOutput maxLines st), st, [])
    else
      (.error s!"Unknown terminal tool: {toolName}", st, [])
  match r.1 with
  | .error msg => (.error (wrapTerminalToolError toolName msg), r.2.1, r.2.2)
  | .ok v => (.ok v, r.2.1, r.2.2)

/-- Modelled from the spec: the MCP server's own schema gate at tool
invocation — the SDK code behind the `server.tool(name, tool.schema,
handler)` registration of `setupRoutes` is not part of this repository.
Per the spec's dispatch contract, the raw arguments are validated
against the tool's declared schema before anything runs: a failure
yields a structured validation error without invoking the handler, a
success hands the validated arguments to the wrapped handler. -/
def sdkToolCall {A : Type} (parse : RawInput → Except String A)
    (handler : A → Except String String) (raw : RawInput) : ToolCallResult :=
  match parse raw with
  | .error e => { content := [e], isError := true }
  | .ok args => wrapToolHandler handler args

/-- C4: a tool call whose raw input fails the tool's declared schema
performs no effect at all — neither a filesystem effect nor a terminal
event, the store and terminal state untouched — the caller gets the
wrapped validation error, never a success, and at the MCP boundary the
dispatch wrapper turns it into an error envelope.  One conjunct per
file tool of the registry, one per terminal tool (through
`executeTerminalTool`'s own parse), and one for the MCP server's schema
gate itself, whose result on invalid input does not depend on the
handler — the handler is never invoked. -/
theorem executeTool_validation_gate (fs : FileSystem) (root : List String)
    (dialogChoice : Option String) (excl : String) (input : RawInput) :
    (∀ e, parsePathContent "createFileSchema" input = .error e →
      executeTool fs root dialogChoice excl "create_file" input true =
        (.error (wrapToolError "create_file" e), fs, []) ∧
      (wrapToolHandler
        (fun i => (executeTool fs root dialogChoice excl "create_file" i true).1)
        input).isError = true) ∧
    (∀ e, parsePathContent "updateFileSchema" input = .error e →
      executeTool fs root dialogChoice excl "update_file" input true =
        (.error (wrapToolError "update_file" e), fs, [])) ∧
    (∀ e, parsePathOnly "deleteFileSchema" input = .error e →
      executeTool fs root dialogChoice excl "delete_file" input true =
        (.error (wrapToolError "delete_file" e), fs, [])) ∧
    (∀ e, parsePathOnly "readFileSchema" input = .error e →
      executeTool fs root dialogChoice excl "read_file" input true =
        (.error (wrapToolError "read_file" e), fs, [])) ∧
    (∀ e, parseQuery input = .error e →
      executeTool fs root dialogChoice excl "search_files" input true =
        (.error (wrapToolError "search_files" e), fs, [])) ∧
    (∀ e, parseMaxResults input = .error e →
      executeTool fs root dialogChoice excl "list_files" input true =
        (.error (wrapToolError "list_files" e), fs, [])) ∧
    (∀ (exec : String → String → String) (wsRoot : String) (st : TermState) e,
      parseRunCommand input = .error e →
      executeTerminalTool exec wsRoot "run_command" input st =
        (.error (wrapTerminalToolError "run_command" e), st, []) ∧
      (wrapToolHandler
        (fun i => (executeTerminalTool exec wsRoot "run_command" i st).1)
        input).isError = true) ∧
    (∀ (exec : String → String → String) (wsRoot : String) (st : TermState) e,
      parseReadTerminalOutput input = .error e →
      executeTerminalTool exec wsRoot "read_terminal_output" input st =
        (.error (wrapTerminalToolError "read_terminal_output" e), st, [])) ∧
    (∀ (A : Type) (parse : RawInput → Except String A)
        (ha hb : A → Except String String) e,
      parse input = .error e →
      sdkToolCall parse ha input = { content := [e], isError := true } ∧
      sdkToolCall parse ha input = sdkToolCall parse hb input) := by
  refine ⟨?_, ?_, ?_, ?_, ?_, ?_, ?_, ?_, ?_⟩
  · intro e hparse
    have hin : execCreateFile fs root dialogChoice input = (.error e, fs, []) := by
      unfold execCreateFile
      rw [hparse]
    have h1 := executeTool_of_switch_error fs root dialogChoice excl
      "create_file" input true e fs [] hin
    refine ⟨h1, ?_⟩
    unfold wrapToolHandler
    rw [show (fun i =>
          (executeTool fs root dialogChoice excl "create_file" i true).1) input =
        (executeTool fs root dialogChoice excl "create_file" input true).1 from
      rfl, h1]
  · intro e hparse
    have hin : execUpdateFile fs root dialogChoice input = (.error e, fs, []) := by
      unfold execUpdateFile
      rw [hparse]
    exact executeTool_of_switch_error fs root dialogChoice excl "update_file"
      input true e fs [] hin
  · intro e hparse
    have hin : execDeleteFile fs root dialogChoice input = (.error e, fs, []) := by
      unfold execDeleteFile
      rw [hparse]
    exact executeTool_of_switch_error fs root dialogChoice excl "delete_file"
      input true e fs [] hin
  · intro e hparse
    have hin : execReadFile fs root input true = (.error e, fs, []) := by
      unfold execReadFile
      rw [hparse]
    exact executeTool_of_switch_error fs root dialogChoice excl "read_file"
      input true e fs [] hin
  · intro e hparse
    have hin : execSearchFiles fs root input = (.error e, fs, []) := by
      unfold execSearchFiles
      rw [hparse]
    exact executeTool_of_switch_error fs root dialogChoice excl "search_files"
      input true e fs [] hin
  · intro e hparse
    have hin : execListFiles fs root excl input = (.error e, fs, []) := by
      unfold execListFiles
      rw [hparse]
    exact executeTool_of_switch_error fs root dialogChoice excl "list_files"
      input true e fs [] hin
  · intro exec wsRoot st e hparse
    have h1 : executeTerminalTool exec wsRoot "run_command" input st =
        (.error (wrapTerminalToolError "run_command" e), st, []) := by
      unfold executeTerminalTool
      rw [hparse]
      rfl
    refine ⟨h1, ?_⟩
    unfold wrapToolHandler
    rw [show (fun i =>
          (executeTerminalTool exec wsRoot "run_command" i st).1) input =
        (executeTerminalTool exec wsRoot "run_command" input st).1 from rfl, h1]
  · intro exec wsRoot st e hparse
    unfold executeTerminalTool
    rw [hparse]
    rfl
  · intro A parse ha hb e hparse
    constructor
    · unfold sdkToolCall
      rw [hparse]
    · unfold sdkToolCall
      rw [hparse]

/-- Witness for `executeTool_validation_gate`: a raw input whose `path`
is a number and whose `command` and `content` are missing fails the
file-tool and `run_command` schemas (`create_file`, `delete_file`,
`run_command` and the SDK gate applied to it); a string `maxLines`
fails the `read_terminal_output` schema. -/
theorem executeTool_validation_gate_witness :
    (executeTool [] ["proj"] none "x" "create_file"
        ⟨[("path", .num 5)]⟩ true).2.2 = [] ∧
    (executeTool [] ["proj"] none "x" "create_file"
        ⟨[("path", .num 5)]⟩ true).2.1 = [] ∧
    (wrapToolHandler
      (fun i => (executeTool [] ["proj"] none "x" "create_file" i true).1)
      ⟨[("path", .num 5)]⟩).isError = true ∧
    (executeTool [] ["proj"] none "x" "delete_file"
        ⟨[("path", .num 5)]⟩ true).2.2 = [] ∧
    (executeTerminalTool (fun _ _ => "out") "/w" "run_command"
        ⟨[("path", .num 5)]⟩ ⟨"", false⟩).2.2 = [] ∧
    (wrapToolHandler
      (fun i => (executeTerminalTool (fun _ _ => "out") "/w" "run_command" i
        ⟨"", false⟩).1) ⟨[("path", .num 5)]⟩).isError = true ∧
    (executeTerminalTool (fun _ _ => "out") "/w" "read_terminal_output"
        ⟨[("maxLines", .str "x")]⟩ ⟨"old", true⟩).2.2 = [] ∧
    sdkToolCall parseRunCommand (fun _ => .ok "a") ⟨[("path", .num 5)]⟩ =
      sdkToolCall parseRunCommand (fun _ => .error "b") ⟨[("path", .num 5)]⟩ ∧
    (sdkToolCall parseRunCommand (fun _ => .ok "a")
      ⟨[("path", .num 5)]⟩).isError = true := by
  have h := executeTool_validation_gate [] ["proj"] none "x" ⟨[("path", .num 5)]⟩
  have h2 := executeTool_validation_gate [] ["proj"] none "x"
    ⟨[("maxLines", .str "x")]⟩
  have hc := h.1 "ZodError: invalid input for createFileSchema" rfl
  have hd := h.2.2.1 "ZodError: invalid input for deleteFileSchema" rfl
  have hr := h.2.2.2.2.2.2.1 (fun _ _ => "out") "/w" ⟨"", false⟩
    "ZodError: invalid input for runCommandSchema" rfl
  have hro := h2.2.2.2.2.2.2.2.1 (fun _ _ => "out") "/w" ⟨"old", true⟩
    "ZodError: invalid input for readTerminalOutputSchema" rfl
  have hs := h.2.2.2.2.2.2.2.2 RunCommandParams parseRunCommand (fun _ => .ok "a")
    (fun _ => .error "b") "ZodError: invalid input for runCommandSchema" rfl
  exact ⟨by rw [hc.1], by rw [hc.1], hc.2, by rw [hd], by rw [hr.1], hr.2,
    by rw [hro], hs.2, by rw [hs.1]⟩

/-- C7: with a schema-valid, workspace-contained `create_file` call —
when the target does not exist the file is written with no dialog shown;
when it exists, the overwrite dialog is shown, and any answer other than
`'Yes'` returns the cancellation result with the store (hence the
existing content) unchanged, while `'Yes'` writes after the dialog. -/
theorem createFile_overwrite_policy (fs : FileSystem) (root : List String)
    (choice : Option String) (excl : String) (p c : String)
    (habs : isAbsolutePath p = false)
    (hcont : relStartsWithDotDot (relSegs root (joinPath root p)) = false) :
    (fs.statOk (joinPath root p) = false →
      executeTool fs root choice excl "create_file"
          ⟨[("path", .str p), ("content", .str c)]⟩ true =
        (.ok s!"File {p} has been created or updated.",
         fs.writeFile (joinPath root p) c,
         [.fs (.write (joinPath root p) c)])) ∧
    (fs.statOk (joinPath root p) = true → choice ≠ some "Yes" →
      executeTool fs root choice excl "create_file"
          ⟨[("path", .str p), ("content", .str c)]⟩ true =
        (.ok s!"Operation cancelled: File {p} was not overwritten.", fs,
         [.dialog s!"File {p} already exists. Do you want to overwrite it?"])) ∧
    (fs.statOk (joinPath root p) = true → choice = some "Yes" →
      executeTool fs root choice excl "create_file"
          ⟨[("path", .str p), ("content", .str c)]⟩ true =
        (.ok s!"File {p} has been created or updated.",
         fs.writeFile (joinPath root p) c,
         [.dialog s!"File {p} already exists. Do you want to overwrite it?",
          .fs (.write (joinPath root p) c)])) := by
  have hsw : executeToolSwitch fs root choice excl "create_file"
      ⟨[("path", .str p), ("content", .str c)]⟩ true =
      execCreateFile fs root choice ⟨[("path", .str p), ("content", .str c)]⟩ := rfl
  refine ⟨?_, ?_, ?_⟩
  · intro hstat
    unfold executeTool
    rw [hsw, execCreateFile_eq, habs, hcont, hstat]
    rfl
  · intro hstat hno
    unfold executeTool
    rw [hsw, execCreateFile_eq, habs, hcont, hstat]
    simp only [Bool.false_eq_true, if_false, if_true, if_neg hno]
  · intro hstat hyes
    unfold executeTool
    rw [hsw, execCreateFile_eq, habs, hcont, hstat]
    simp only [Bool.false_eq_true, if_false, if_true, if_pos hyes]

/-- Witness for `createFile_overwrite_policy`: creating a fresh
`b.txt`; cancelling and approving an overwrite of an existing
`a.txt`. -/
theorem createFile_overwrite_policy_witness :
    executeTool [] ["proj"] none "x" "create_file"
        ⟨[("path", .str "b.txt"), ("content", .str "hi")]⟩ true =
      (.ok "File b.txt has been created or updated.",
       [⟨["proj", "b.txt"], "hi", true⟩],
       [.fs (.write ["proj", "b.txt"] "hi")]) ∧
    executeTool [⟨["proj", "a.txt"], "old", true⟩] ["proj"] (some "Cancel") "x"
        "create_file" ⟨[("path", .str "a.txt"), ("content", .str "new")]⟩ true =
      (.ok "Operation cancelled: File a.txt was not overwritten.",
       [⟨["proj", "a.txt"], "old", true⟩],
       [.dialog "File a.txt already exists. Do you want to overwrite it?"]) ∧
    executeTool [⟨["proj", "a.txt"], "old", true⟩] ["proj"] (some "Yes") "x"
        "create_file" ⟨[("path", .str "a.txt"), ("content", .str "new")]⟩ true =
      (.ok "File a.txt has been created or updated.",
       [⟨["proj", "a.txt"], "new", true⟩],
       [.dialog "File a.txt already exists. Do you want to overwrite it?",
        .fs (.write ["proj", "a.txt"] "new")]) := by
  refine ⟨?_, ?_, ?_⟩
  · have h := (createFile_overwrite_policy [] ["proj"] none "x" "b.txt" "hi"
      (by decide) (by decide)).1 (by decide)
    rw [h]
    rfl
  · have h := (createFile_overwrite_policy [⟨["proj", "a.txt"], "old", true⟩]
      ["proj"] (some "Cancel") "x" "a.txt" "new" (by decide) (by decide)).2.1
      (by decide) (by decide)
    rw [h]
    rfl
  · have h := (createFile_overwrite_policy [⟨["proj", "a.txt"], "old", true⟩]
      ["proj"] (some "Yes") "x" "a.txt" "new" (by decide) (by decide)).2.2
      (by decide) rfl
    rw [h]
    rfl

/-- `execUpdateFile` on a schema-valid input, written out as its
decision tree. -/
theorem execUpdateFile_eq (fs : FileSystem) (root : List String)
    (choice : Option String) (p c : String) :
    execUpdateFile fs root choice ⟨[("path", .str p), ("content", .str c)]⟩ =
      (if isAbsolutePath p = true then
        (.error "Absolute paths are not allowed. Please provide a relative path to the workspace root.",
         fs, [])
      else if relStartsWithDotDot (relSegs root (joinPath root p)) = true then
        (.error "Path is outside the workspace", fs, [])
      else if (!fs.statOk (joinPath root p)) = true then
        (.error s!"File {p} does not exist. Use create_file instead.", fs, [])
      else if choice = some "Yes" then
        (.ok s!"File {p} has been updated.",
         fs.writeFile (joinPath root p) c,
         [.dialog s!"Are you sure you want to update file {p}? This will replace its entire contents.",
          .fs (.write (joinPath root p) c)])
      else
        (.ok s!"Operation cancelled: File {p} was not updated.", fs,
         [.dialog s!"Are you sure you want to update file {p}? This will replace its entire contents."])) := rfl

/-- `execDeleteFile` on a schema-valid input, written out as its
decision tree. -/
theorem execDeleteFile_eq (fs : FileSystem) (root : List String)
    (choice : Option String) (p : String) :
    execDeleteFile fs root choice ⟨[("path", .str p)]⟩ =
      (if isAbsolutePath p = true then
        (.error "Absolute paths are not allowed. Please provide a relative path to the workspace root.",
         fs, [])
      else if relStartsWithDotDot (relSegs root (joinPath root p)) = true then
        (.error "Path is outside the workspace", fs, [])
      else if choice = some "Yes" then
        if fs.statOk (joinPath root p) = true then
          (.ok s!"File {p} has been deleted.",
           fs.deleteFile (joinPath root p),
           [.dialog s!"Are you sure you want to delete file {p}?",
            .fs (.delete (joinPath root p))])
        else
          (.error "FileSystemError: EntryNotFound", fs,
           [.dialog s!"Are you sure you want to delete file {p}?"])
      else
        (.ok s!"Operation cancelled: File {p} was not deleted.", fs,
         [.dialog s!"Are you sure you want to delete file {p}?"])) := rfl

/-- `execReadFile` rejects an absolute path with no effect. -/
theorem execReadFile_absolute (fs : FileSystem) (root : List String)
    (p : String) (showContents : Bool) (habs : isAbsolutePath p = true) :
    execReadFile fs root ⟨[("path", .str p)]⟩ showContents =
      (.error "Absolute paths are not allowed. Please provide a relative path to the workspace root.",
       fs, []) := by
  unfold execReadFile
  show (if isAbsolutePath p = true then _ else _) = _
  rw [if_pos habs]

/-- Every effect of `execCreateFile` touches a path under the root. -/
theorem execCreateFile_effects_inside (fs : FileSystem) (root : List String)
    (choice : Option String) (input : RawInput) :
    ∀ ev ∈ (execCreateFile fs root choice input).2.2, ∀ q,
      ev.touches = some q → insideRoot root q := by
  intro ev hev q hq
  unfold execCreateFile at hev
  split at hev
  · simp at hev
  · dsimp only at hev
    split_ifs at hev with h1 h2 h3 h4
    · simp at hev
    · simp at hev
    · simp at hev
      rcases hev with hev | hev
      · subst hev; simp [FileEvent.touches] at hq
      · subst hev
        simp [FileEvent.touches] at hq
        subst hq
        exact relStartsWithDotDot_false_imp_insideRoot _ _ (by simpa using h2)
    · simp at hev
      subst hev; simp [FileEvent.touches] at hq
    · simp at hev
      subst hev
      simp [FileEvent.touches] at hq
      subst hq
      exact relStartsWithDotDot_false_imp_insideRoot _ _ (by simpa using h2)

/-- Every effect of `execUpdateFile` touches a path under the root. -/
theorem execUpdateFile_effects_inside (fs : FileSystem) (root : List String)
    (choice : Option String) (input : RawInput) :
    ∀ ev ∈ (execUpdateFile fs root choice input).2.2, ∀ q,
      ev.touches = some q → insideRoot root q := by
  intro ev hev q hq
  unfold execUpdateFile at hev
  split at hev
  · simp at hev
  · dsimp only at hev
    split_ifs at hev with h1 h2 h3 h4
    · simp at hev
    · simp at hev
    · simp at hev
    · simp at hev
      rcases hev with hev | hev
      · subst hev; simp [FileEvent.touches] at hq
      · subst hev
        simp [FileEvent.touches] at hq
        subst hq
        exact relStartsWithDotDot_false_imp_insideRoot _ _ (by simpa using h2)
    · simp at hev
      subst hev; simp [FileEvent.touches] at hq

/-- Every effect of `execDeleteFile` touches a path under the root. -/
theorem execDeleteFile_effects_inside (fs : FileSystem) (root : List String)
    (choice : Option String) (input : RawInput) :
    ∀ ev ∈ (execDeleteFile fs root choice input).2.2, ∀ q,
      ev.touches = some q → insideRoot root q := by
  intro ev hev q hq
  unfold execDeleteFile at hev
  split at hev
  · simp at hev
  · dsimp only at hev
    split_ifs at hev with h1 h2 h3 h4
    · simp at hev
    · simp at hev
    · simp at hev
      rcases hev with hev | hev
      · subst hev; simp [FileEvent.touches] at hq
      · subst hev
        simp [FileEvent.touches] at hq
        subst hq
        exact relStartsWithDotDot_false_imp_insideRoot _ _ (by simpa using h2)
    · simp at hev
      subst hev; simp [FileEvent.touches] at hq
    · simp at hev
      subst hev; simp [FileEvent.touches] at hq

/-- Every effect of `execReadFile` touches a path under the root. -/
theorem execReadFile_effects_inside (fs : FileSystem) (root : List String)
    (input : RawInput) (showContents : Bool) :
    ∀ ev ∈ (execReadFile fs root input showContents).2.2, ∀ q,
      ev.touches = some q → insideRoot root q := by
  intro ev hev q hq
  unfold execReadFile at hev
  cases hp : parsePathOnly "readFileSchema" input with
  | error e => rw [hp] at hev; simp at hev
  | ok p =>
    rw [hp] at hev
    by_cases habs : isAbsolutePath p = true
    · simp [habs] at hev
    · have habs' : isAbsolutePath p = false := by simpa using habs
      cases hsel : readFileSelect fs root p with
      | error e => simp [habs', hsel] at hev
      | ok uri =>
        by_cases hdd : relStartsWithDotDot (relSegs root uri) = true
        · simp [habs', hsel, hdd] at hev
        · have hdd' : relStartsWithDotDot (relSegs root uri) = false := by
            simpa using hdd
          cases hc : fs.contentOf uri with
          | none => simp [habs', hsel, hdd', hc] at hev
          | some c =>
            simp [habs', hsel, hdd', hc] at hev
            subst hev
            simp [FileEvent.touches] at hq
            subst hq
            exact relStartsWithDotDot_false_imp_insideRoot _ _ hdd'

/-- `execSearchFiles` performs no effect. -/
theorem execSearchFiles_no_effects (fs : FileSystem) (root : List String)
    (input : RawInput) : (execSearchFiles fs root input).2.2 = [] := by
  unfold execSearchFiles
  split <;> rfl

/-- `execListFiles` performs no effect. -/
theorem execListFiles_no_effects (fs : FileSystem) (root : List String)
    (excl : String) (input : RawInput) :
    (execListFiles fs root excl input).2.2 = [] := by
  unfold execListFiles
  split <;> rfl

/-- Every effect of the tool switch touches a path under the root. -/
theorem executeToolSwitch_effects_inside (fs : FileSystem) (root : List String)
    (choice : Option String) (excl toolName : String) (input : RawInput)
    (showContents : Bool) :
    ∀ ev ∈ (executeToolSwitch fs root choice excl toolName input
        showContents).2.2, ∀ q, ev.touches = some q → insideRoot root q := by
  unfold executeToolSwitch
  split_ifs with h1 h2 h3 h4 h5 h6
  · exact execCreateFile_effects_inside fs root choice input
  · exact execUpdateFile_effects_inside fs root choice input
  · exact execDeleteFile_effects_inside fs root choice input
  · exact execReadFile_effects_inside fs root input showContents
  · intro ev hev
    rw [execSearchFiles_no_effects] at hev
    simp at hev
  · intro ev hev
    rw [execListFiles_no_effects] at hev
    simp at hev
  · intro ev hev
    simp at hev

/-- The outer catch neither adds nor drops trace events. -/
theorem executeTool_trace_eq (fs : FileSystem) (root : List String)
    (choice : Option String) (excl toolName : String) (input : RawInput)
    (showContents : Bool) :
    (executeTool fs root choice excl toolName input showContents).2.2 =
      (executeToolSwitch fs root choice excl toolName input showContents).2.2 := by
  unfold executeTool
  cases hr : (executeToolSwitch fs root choice excl toolName input showContents).1 <;>
    simp [hr]

/-- C9 fails as stated: `read_file` with the workspace-escaping relative
path `../a.txt` (its resolution leaves the root, third conjunct) does
not throw — the exact join misses, the `**/a.txt` pattern cascade finds
the workspace file `sub/a.txt`, and its content is returned, a read
having been performed. -/
theorem readFile_escape_counterexample :
    executeTool [⟨["proj", "sub", "a.txt"], "hello", true⟩] ["proj"] none "x"
        "read_file" ⟨[("path", .str "../a.txt")]⟩ true =
      (.ok "hello", [⟨["proj", "sub", "a.txt"], "hello", true⟩],
       [.fs (.read ["proj", "sub", "a.txt"])]) ∧
    relStartsWithDotDot
      (relSegs ["proj"] (joinPath ["proj"] "../a.txt")) = true :=
  ⟨rfl, by decide⟩

/-- C9 amended: `create_file`, `update_file` and `delete_file` reject an
absolute or workspace-escaping path with an error before any filesystem
effect (empty trace, store unchanged); `read_file` rejects an absolute
path likewise, while an escaping relative path either errors or falls
back to a basename match inside the workspace; and across all tools and
inputs, every filesystem effect — read, write or delete — touches only
paths under the workspace root. -/
theorem fileTools_workspace_containment (fs : FileSystem) (root : List String)
    (choice : Option String) (excl : String) :
    (∀ p c, isAbsolutePath p = true ∨
        relStartsWithDotDot (relSegs root (joinPath root p)) = true →
      ∃ msg, executeTool fs root choice excl "create_file"
          ⟨[("path", .str p), ("content", .str c)]⟩ true = (.error msg, fs, [])) ∧
    (∀ p c, isAbsolutePath p = true ∨
        relStartsWithDotDot (relSegs root (joinPath root p)) = true →
      ∃ msg, executeTool fs root choice excl "update_file"
          ⟨[("path", .str p), ("content", .str c)]⟩ true = (.error msg, fs, [])) ∧
    (∀ p, isAbsolutePath p = true ∨
        relStartsWithDotDot (relSegs root (joinPath root p)) = true →
      ∃ msg, executeTool fs root choice excl "delete_file"
          ⟨[("path", .str p)]⟩ true = (.error msg, fs, [])) ∧
    (∀ p, isAbsolutePath p = true →
      ∃ msg, executeTool fs root choice excl "read_file"
          ⟨[("path", .str p)]⟩ true = (.error msg, fs, [])) ∧
    (∀ toolName input showContents,
      ∀ ev ∈ (executeTool fs root choice excl toolName input
          showContents).2.2, ∀ q, ev.touches = some q → insideRoot root q) := by
  refine ⟨?_, ?_, ?_, ?_, ?_⟩
  · intro p c hbad
    by_cases habs : isAbsolutePath p = true
    · exact ⟨_, executeTool_of_switch_error fs root choice excl "create_file"
        ⟨[("path", .str p), ("content", .str c)]⟩ true _ fs []
        (by rw [show executeToolSwitch fs root choice excl "create_file"
              ⟨[("path", .str p), ("content", .str c)]⟩ true =
            execCreateFile fs root choice
              ⟨[("path", .str p), ("content", .str c)]⟩ from rfl,
          execCreateFile_eq]; simp [habs]; rfl)⟩
    · have habs' : isAbsolutePath p = false := by simpa using habs
      have hdd : relStartsWithDotDot (relSegs root (joinPath root p)) = true := by
        rcases hbad with h | h
        · exact absurd h habs
        · exact h
      exact ⟨_, executeTool_of_switch_error fs root choice excl "create_file"
        ⟨[("path", .str p), ("content", .str c)]⟩ true _ fs []
        (by rw [show executeToolSwitch fs root choice excl "create_file"
              ⟨[("path", .str p), ("content", .str c)]⟩ true =
            execCreateFile fs root choice
              ⟨[("path", .str p), ("content", .str c)]⟩ from rfl,
          execCreateFile_eq]; simp [habs', hdd]; rfl)⟩
  · intro p c hbad
    by_cases habs : isAbsolutePath p = true
    · exact ⟨_, executeTool_of_switch_error fs root choice excl "update_file"
        ⟨[("path", .str p), ("content", .str c)]⟩ true _ fs []
        (by rw [show executeToolSwitch fs root choice excl "update_file"
              ⟨[("path", .str p), ("content", .str c)]⟩ true =
            execUpdateFile fs root choice
              ⟨[("path", .str p), ("content", .str c)]⟩ from rfl,
          execUpdateFile_eq]; simp [habs]; rfl)⟩
    · have habs' : isAbsolutePath p = false := by simpa using habs
      have hdd : relStartsWithDotDot (relSegs root (joinPath root p)) = true := by
        rcases hbad with h | h
        · exact absurd h habs
        · exact h
      exact ⟨_, executeTool_of_switch_error fs root choice excl "update_file"
        ⟨[("path", .str p), ("content", .str c)]⟩ true _ fs []
        (by rw [show executeToolSwitch fs root choice excl "update_file"
              ⟨[("path", .str p), ("content", .str c)]⟩ true =
            execUpdateFile fs root choice
              ⟨[("path", .str p), ("content", .str c)]⟩ from rfl,
          execUpdateFile_eq]; simp [habs', hdd]; rfl)⟩
  · intro p hbad
    by_cases habs : isAbsolutePath p = true
    · exact ⟨_, executeTool_of_switch_error fs root choice excl "delete_file"
        ⟨[("path", .str p)]⟩ true _ fs []
        (by rw [show executeToolSwitch fs root choice excl "delete_file"
              ⟨[("path", .str p)]⟩ true =
            execDeleteFile fs root choice ⟨[("path", .str p)]⟩ from rfl,
          execDeleteFile_eq]; simp [habs]; rfl)⟩
    · have habs' : isAbsolutePath p = false := by simpa using habs
      have hdd : relStartsWithDotDot (relSegs root (joinPath root p)) = true := by
        rcases hbad with h | h
        · exact absurd h habs
        · exact h
      exact ⟨_, executeTool_of_switch_error fs root choice excl "delete_file"
        ⟨[("path", .str p)]⟩ true _ fs []
        (by rw [show executeToolSwitch fs root choice excl "delete_file"
              ⟨[("path", .str p)]⟩ true =
            execDeleteFile fs root choice ⟨[("path", .str p)]⟩ from rfl,
          execDeleteFile_eq]; simp [habs', hdd]; rfl)⟩
  · intro p habs
    exact ⟨_, executeTool_of_switch_error fs root choice excl "read_file"
      ⟨[("path", .str p)]⟩ true _ fs []
      (by rw [show executeToolSwitch fs root choice excl "read_file"
            ⟨[("path", .str p)]⟩ true =
          execReadFile fs root ⟨[("path", .str p)]⟩ true from rfl,
        execReadFile_absolute fs root p true habs])⟩
  · intro toolName input showContents ev hev q hq
    rw [executeTool_trace_eq] at hev
    exact executeToolSwitch_effects_inside fs root choice excl toolName input
      showContents ev hev q hq

/-- Witness for `fileTools_workspace_containment`: an absolute
`create_file`, an escaping `update_file`, an escaping `delete_file`, an
absolute `read_file`, and the containment of the one write effect of a
valid `create_file`. -/
theorem fileTools_workspace_containment_witness :
    (∃ msg, executeTool [] ["proj"] none "x" "create_file"
        ⟨[("path", .str "/etc/passwd"), ("content", .str "h")]⟩ true =
      (.error msg, [], [])) ∧
    (∃ msg, executeTool [] ["proj"] none "x" "update_file"
        ⟨[("path", .str "../u.txt"), ("content", .str "h")]⟩ true =
      (.error msg, [], [])) ∧
    (∃ msg, executeTool [] ["proj"] (some "Yes") "x" "delete_file"
        ⟨[("path", .str "../d.txt")]⟩ true = (.error msg, [], [])) ∧
    (∃ msg, executeTool [] ["proj"] none "x" "read_file"
        ⟨[("path", .str "/etc/shadow")]⟩ true = (.error msg, [], [])) ∧
    insideRoot ["proj"]
      (FsEffect.path (FsEffect.write ["proj", "b.txt"] "hi")) := by
  have h := fileTools_workspace_containment [] ["proj"] none "x"
  have h3 := fileTools_workspace_containment [] ["proj"] (some "Yes") "x"
  refine ⟨h.1 "/etc/passwd" "h" (Or.inl (by decide)),
    h.2.1 "../u.txt" "h" (Or.inr (by decide)),
    h3.2.2.1 "../d.txt" (Or.inr (by decide)),
    h.2.2.2.1 "/etc/shadow" (by decide), ?_⟩
  exact h.2.2.2.2 "create_file" ⟨[("path", .str "b.txt"), ("content", .str "hi")]⟩
    true (.fs (.write ["proj", "b.txt"] "hi"))
    (by rw [show (executeTool [] ["proj"] none "x" "create_file"
          ⟨[("path", .str "b.txt"), ("content", .str "hi")]⟩ true).2.2 =
        [.fs (.write ["proj", "b.txt"] "hi")] from rfl]; simp)
    ["proj", "b.txt"] rfl

end LettaMcp
